import Mathlib

/-!
The OAuth1 serve mux of `mux.go`.

A shallow embedding of the login / callback handlers of `ServeMux`, of its
`Token` accessor and of its `Callback` subscription call.

Every handler is a pure function from the state of the mux (and the inputs of
the call) to the new state and the list of effects it performed, in program
order: calls made to the provider, what was written to the response, the log
lines, and the values sent on subscriber channels.

The provider (the methods `RequestToken`, `AuthorizationURL`, `AccessToken` of the
embedded `Config`) talks to the network, so its answers are an input of each
handler call.
-/

namespace OAuth1

/-- A Go `error` value that is not nil, carried as its message. -/
abbrev Error := String

/-- A `chan bool` value: channels are compared by identity, the identity being the
rank of the `make` call that created the channel. -/
abbrev Chan := Nat

/-- A `time.Time`, as a count of ticks; `0` is the zero value. -/
abbrev Time := Nat

/-- A `*url.URL` that is not nil, carried as the text `String()` renders. -/
structure URL where
  text : String
deriving DecidableEq, Repr

/-- Modelled from the spec: the access credential value object (token + secret);
the type `Token` is declared outside `mux.go`. -/
structure Token where
  token : String
  tokenSecret : String
deriving DecidableEq, Repr

/-- Modelled from the spec: `NewToken` builds the credential from the pair returned
by the exchange; it is declared outside `mux.go`. The result is a non-nil pointer. -/
def NewToken (token tokenSecret : String) : Option Token :=
  some { token := token, tokenSecret := tokenSecret }

/-- Modelled from the spec: the name of the token parameter of the callback; the
constant is declared outside `mux.go`. -/
def oauthTokenParam : String := "oauth_token"

/-- Modelled from the spec: the name of the verifier parameter of the callback; the
constant is declared outside `mux.go`. -/
def oauthVerifierParam : String := "oauth_verifier"

/-- Modelled from the spec: the call contract of the provider collaborator (the methods
of the embedded `Config`, declared outside `mux.go`). Each call either fails with an
error or returns its value. -/
structure Provider where
  RequestToken : Except Error (String × String)
  AuthorizationURL : String → Except Error URL
  AccessToken : String → String → String → Except Error (String × String)

/-- The form values of a request (`url.Values`): keys with their lists of values. -/
structure Values where
  entries : List (String × List String)
deriving DecidableEq, Repr

/-- The method `Get` of `url.Values`: the first value of the key, or the empty string. -/
def Values.Get (v : Values) (key : String) : String :=
  match v.entries.lookup key with
  | some (x :: _) => x
  | _ => ""

/-- An incoming request, as far as the handlers read it: what `ParseForm` leaves in
`r.Form`, and the error `ParseForm` returns (Go fills `r.Form` with the pairs that
parsed even when it returns an error). -/
structure Request where
  Form : Values
  parseErr : Option Error
deriving DecidableEq, Repr

/-- The result of `r.ParseForm()`. -/
def Request.ParseForm (r : Request) : Option Error := r.parseErr

/-- One effect of a handler. -/
inductive Event where
  /-- the call `s.RequestToken()` -/
  | requestToken
  /-- the call `s.AuthorizationURL(token)` -/
  | authorizationURL (token : String)
  /-- the call `s.AccessToken(token, secret, verifier)` -/
  | accessToken (token secret verifier : String)
  /-- the call `w.WriteHeader(code)` -/
  | writeHeader (code : Nat)
  /-- the call `http.Redirect(w, r, url, code)` -/
  | redirect (url : String) (code : Nat)
  /-- a line logged with `fmt.Printf` -/
  | printf (format : String) (err : Error)
  /-- the call `s.callbackMut.Lock()` -/
  | lock
  /-- the call `s.callbackMut.Unlock()` -/
  | unlock
  /-- the statement `ch <- v` -/
  | send (ch : Chan) (v : Bool)
deriving DecidableEq, Repr

/-- The struct `ServeMuxConfig`; the type of the embedded `Config` is a parameter. -/
structure ServeMuxConfig (κ : Type) where
  Config : κ
  LoginPath : String
  CallbackPath : String
deriving DecidableEq, Repr

/-- The method `setDefaults`. -/
def ServeMuxConfig.setDefaults {κ : Type} (a : ServeMuxConfig κ) : ServeMuxConfig κ :=
  let a := if a.LoginPath = "" then { a with LoginPath := "/login" } else a
  if a.CallbackPath = "" then { a with CallbackPath := "/callback" } else a

/-- The struct `ServeMux`. The mutex is free whenever no handler runs, so it carries no
state here; `chanCount` is the number of channels `make` has created so far. -/
structure ServeMux (κ : Type) where
  ServeMuxConfig : ServeMuxConfig κ
  requestToken : String
  requestSecret : String
  token : Option Token
  gotTokenAt : Time
  callbackChs : List Chan
  chanCount : Nat
deriving DecidableEq, Repr

/-- The constructor `NewServeMux`. -/
def NewServeMux {κ : Type} (config : ServeMuxConfig κ) : ServeMux κ :=
  { ServeMuxConfig := config.setDefaults
    requestToken := ""
    requestSecret := ""
    token := none
    gotTokenAt := 0
    callbackChs := []
    chanCount := 0 }

/-- The method `authorize`: the new state, the effects, and the URL or the error. -/
def ServeMux.authorize {κ : Type} (p : Provider) (s : ServeMux κ) :
    ServeMux κ × List Event × Except Error URL :=
  match p.RequestToken with
  | .error err => (s, [.requestToken], .error err)
  | .ok (requestToken, requestSecret) =>
    let s := { s with requestToken := requestToken }
    let s := { s with requestSecret := requestSecret }
    (s, [.requestToken, .authorizationURL requestToken], p.AuthorizationURL requestToken)

/-- The handler `login`. -/
def ServeMux.login {κ : Type} (p : Provider) (s : ServeMux κ) : ServeMux κ × List Event :=
  match s.authorize p with
  | (s, evs, .error err) =>
    (s, evs ++ [.writeHeader 500, .printf "failed to authorize: %e\n" err])
  | (s, evs, .ok url) => (s, evs ++ [.redirect url.text 302])

/-- The loop `for _, ch := range chs { ch <- true }` when somebody receives from every
channel, so that every send completes; `sendUntilBlocked` is the loop without that
assumption. -/
def sendAll : List Chan → List Event
  | [] => []
  | ch :: chs => .send ch true :: sendAll chs

/-- The handler `callback`, for a call that runs to its end; `now` is what `time.Now()`
returns. On the success path this takes every send of the drain as received;
`ServeMux.callbackRecv` is the handler when subscribers may have stopped receiving. -/
def ServeMux.callback {κ : Type} (p : Provider) (now : Time) (r : Request) (s : ServeMux κ) :
    ServeMux κ × List Event :=
  match r.ParseForm with
  | some err => (s, [.writeHeader 500, .printf "failed to parse form: %e\n" err])
  | none =>
    let requestToken := r.Form.Get oauthTokenParam
    let requestToken := if requestToken = "" then s.requestToken else requestToken
    let verifier := r.Form.Get oauthVerifierParam
    if requestToken = "" ∨ verifier = "" then
      (s, [.writeHeader 400])
    else
      match p.AccessToken requestToken s.requestSecret verifier with
      | .error err =>
        (s, [.accessToken requestToken s.requestSecret verifier, .writeHeader 500,
             .printf "failed to get access token: %e\n" err])
      | .ok (accessToken, accessSecret) =>
        let s := { s with token := NewToken accessToken accessSecret }
        let s := { s with gotTokenAt := now }
        ({ s with callbackChs := [] },
          [.accessToken requestToken s.requestSecret verifier, .lock]
            ++ sendAll s.callbackChs ++ [.unlock])

/-- The method `Token`: the stored token and a nil error. -/
def ServeMux.Token {κ : Type} (a : ServeMux κ) : Option Token × Option Error :=
  (a.token, none)

/-- The method `Callback`: the new state, the effects, and the channel returned. -/
def ServeMux.Callback {κ : Type} (s : ServeMux κ) : ServeMux κ × List Event × Chan :=
  let ch := s.chanCount
  ({ s with callbackChs := s.callbackChs ++ [ch], chanCount := s.chanCount + 1 },
    [.lock, .unlock], ch)

/-! ## Reading a list of effects -/

/-- The status the response carries: the code of the first `WriteHeader` or `Redirect`. -/
def status : List Event → Option Nat
  | [] => none
  | .writeHeader code :: _ => some code
  | .redirect _ code :: _ => some code
  | _ :: evs => status evs

/-- The target of the redirect the response carries, if any. -/
def redirectTarget : List Event → Option String
  | [] => none
  | .redirect url _ :: _ => some url
  | _ :: evs => redirectTarget evs

/-- The exchanges asked of the provider, as (token, secret, verifier), in order. -/
def exchanges : List Event → List (String × String × String)
  | [] => []
  | .accessToken t s v :: evs => (t, s, v) :: exchanges evs
  | _ :: evs => exchanges evs

/-- The tokens `AuthorizationURL` was called with, in order. -/
def urlCalls : List Event → List String
  | [] => []
  | .authorizationURL t :: evs => t :: urlCalls evs
  | _ :: evs => urlCalls evs

/-- The values sent on channels, as (channel, value), in order. -/
def sends : List Event → List (Chan × Bool)
  | [] => []
  | .send ch v :: evs => (ch, v) :: sends evs
  | _ :: evs => sends evs

/-- The Flow State of the mux: request credential, access credential and its time. -/
def ServeMux.flowState {κ : Type} (s : ServeMux κ) :
    String × String × Option OAuth1.Token × Time :=
  (s.requestToken, s.requestSecret, s.token, s.gotTokenAt)

/-- Lines 70 to 73 of `callback`: the request token the handler goes on with. -/
def effectiveToken {κ : Type} (r : Request) (s : ServeMux κ) : String :=
  if r.Form.Get oauthTokenParam = "" then s.requestToken else r.Form.Get oauthTokenParam

/-! ## Sequences of calls -/

/-- One call on the mux, with the inputs the call receives. -/
inductive Op where
  | login (p : Provider)
  | callback (p : Provider) (now : Time) (r : Request)
  | Token
  | Callback

/-- The state after one call and the effects of the call. -/
def step {κ : Type} (s : ServeMux κ) : Op → ServeMux κ × List Event
  | .login p => s.login p
  | .callback p now r => s.callback p now r
  | .Token => (s, [])
  | .Callback => (s.Callback.1, s.Callback.2.1)

/-- The state after a sequence of calls and the effects of all of them, in order. -/
def run {κ : Type} (s : ServeMux κ) : List Op → ServeMux κ × List Event
  | [] => (s, [])
  | op :: ops => ((run (step s op).1 ops).1, (step s op).2 ++ (run (step s op).1 ops).2)

/-- A call is a login or a callback that answers 400 or 500 in state `s`. -/
def failed {κ : Type} (s : ServeMux κ) : Op → Bool
  | .login p => status (s.login p).2 = some 400 ∨ status (s.login p).2 = some 500
  | .callback p now r =>
    status (s.callback p now r).2 = some 400 ∨ status (s.callback p now r).2 = some 500
  | _ => false

/-- Every call of the sequence is a failed login or a failed callback. -/
def allFailed {κ : Type} (s : ServeMux κ) : List Op → Bool
  | [] => true
  | op :: ops => failed s op && allFailed (step s op).1 ops

/-- A call is a callback that completes the flow in state `s`: no status is written. -/
def succeeded {κ : Type} (s : ServeMux κ) : Op → Bool
  | .callback p now r => status (s.callback p now r).2 = none
  | _ => false

/-- Some call of the sequence is a callback that completes the flow. -/
def anySucceeded {κ : Type} (s : ServeMux κ) : List Op → Bool
  | [] => false
  | op :: ops => succeeded s op || anySucceeded (step s op).1 ops

/-- The number of values sent on the channel `ch`. -/
def signalCount (ch : Chan) (evs : List Event) : Nat :=
  (sends evs).countP fun x => x.1 = ch

/-- The handles of the registry are distinct and were all created by earlier `make` calls. -/
def WellFormed {κ : Type} (s : ServeMux κ) : Prop :=
  s.callbackChs.Nodup ∧ ∀ ch : Nat, ch ∈ s.callbackChs → ch < s.chanCount

/-- The handles returned by the `Callback()` calls of a sequence that were made after its
last callback that completed the flow (by all of them if none did), in call order; `acc`
holds those returned before the sequence starts. This follows the words of the registry
invariant, to be compared with the registry the code keeps. -/
def pendingHandles {κ : Type} (s : ServeMux κ) (acc : List Chan) : List Op → List Chan
  | [] => acc
  | .Callback :: ops => pendingHandles (step s .Callback).1 (acc ++ [s.Callback.2.2]) ops
  | op :: ops =>
    if succeeded s op = true then pendingHandles (step s op).1 [] ops
    else pendingHandles (step s op).1 acc ops

/-! ## The handlers, statement by statement -/

/-- The handler `callback` again, each effect paired with the state of the mux at the moment
the effect takes place: the stores of lines 87 and 88 come before the lock of line 90, the
sends of lines 91 to 93 before the reset of line 94, and the reset before the unlock. -/
def ServeMux.callbackTimed {κ : Type} (p : Provider) (now : Time) (r : Request)
    (s : ServeMux κ) : List (Event × ServeMux κ) :=
  match r.ParseForm with
  | some err => [(.writeHeader 500, s), (.printf "failed to parse form: %e\n" err, s)]
  | none =>
    let requestToken := r.Form.Get oauthTokenParam
    let requestToken := if requestToken = "" then s.requestToken else requestToken
    let verifier := r.Form.Get oauthVerifierParam
    if requestToken = "" ∨ verifier = "" then
      [(.writeHeader 400, s)]
    else
      match p.AccessToken requestToken s.requestSecret verifier with
      | .error err =>
        [(.accessToken requestToken s.requestSecret verifier, s), (.writeHeader 500, s),
         (.printf "failed to get access token: %e\n" err, s)]
      | .ok (accessToken, accessSecret) =>
        let s1 := { s with token := NewToken accessToken accessSecret }
        let s2 := { s1 with gotTokenAt := now }
        [(.accessToken requestToken s.requestSecret verifier, s), (.lock, s2)]
          ++ (sendAll s2.callbackChs).map (fun ev => (ev, s2))
          ++ [(.unlock, { s2 with callbackChs := [] })]

/-- A field of `ServeMux` that the handlers read or write. -/
inductive Field where
  | requestToken
  | requestSecret
  | token
  | gotTokenAt
  | callbackChs
deriving DecidableEq, Repr

/-- The fields of the Flow State: all but the registry. -/
def Field.isFlowState : Field → Bool
  | .callbackChs => false
  | _ => true

/-- A read or a write of a field, or a call on the mutex `callbackMut`. -/
inductive Access where
  | read (f : Field)
  | write (f : Field)
  | lock
  | unlock
deriving DecidableEq, Repr

/-- The field accesses and mutex calls of `authorize`, in program order. -/
def authorizeAccesses (p : Provider) : List Access :=
  match p.RequestToken with
  | .error _ => []
  | .ok _ => [.write .requestToken, .write .requestSecret]

/-- The field accesses and mutex calls of `login`: those of `authorize`. -/
def loginAccesses (p : Provider) : List Access := authorizeAccesses p

/-- The field accesses and mutex calls of `callback`, in program order. -/
def callbackAccesses {κ : Type} (p : Provider) (r : Request) (s : ServeMux κ) : List Access :=
  match r.ParseForm with
  | some _ => []
  | none =>
    let requestToken := r.Form.Get oauthTokenParam
    let tokenReads : List Access := if requestToken = "" then [.read .requestToken] else []
    let requestToken := if requestToken = "" then s.requestToken else requestToken
    let verifier := r.Form.Get oauthVerifierParam
    if requestToken = "" ∨ verifier = "" then
      tokenReads
    else
      match p.AccessToken requestToken s.requestSecret verifier with
      | .error _ => tokenReads ++ [.read .requestSecret]
      | .ok _ =>
        tokenReads ++ [.read .requestSecret, .write .token, .write .gotTokenAt,
          .lock, .read .callbackChs, .write .callbackChs, .unlock]

/-- The field accesses and mutex calls of `Token`. -/
def tokenAccesses : List Access := [.read .token]

/-- The field accesses and mutex calls of `Callback`, in program order. -/
def subscribeAccesses : List Access :=
  [.lock, .read .callbackChs, .write .callbackChs, .unlock]

/-- The field accesses and mutex calls of one call on the mux. -/
def accesses {κ : Type} (s : ServeMux κ) : Op → List Access
  | .login p => loginAccesses p
  | .callback p _ r => callbackAccesses p r s
  | .Token => tokenAccesses
  | .Callback => subscribeAccesses

/-- Each field access of a list, with whether the mutex is held when it happens; `held`
says whether the mutex is held at the start. -/
def fieldAccesses (held : Bool) : List Access → List (Field × Bool)
  | [] => []
  | .lock :: as => fieldAccesses true as
  | .unlock :: as => fieldAccesses false as
  | .read f :: as => (f, held) :: fieldAccesses held as
  | .write f :: as => (f, held) :: fieldAccesses held as

/-- Every access of a Flow State field happens with the mutex held. -/
def flowStateGuarded (as : List Access) : Bool :=
  (fieldAccesses false as).all fun x => !x.1.isFlowState || x.2

/-- The calls on the mutex in a list of accesses: `true` for a lock, `false` for an unlock. -/
def mutexCalls : List Access → List Bool
  | [] => []
  | .lock :: rest => true :: mutexCalls rest
  | .unlock :: rest => false :: mutexCalls rest
  | _ :: rest => mutexCalls rest

/-- The calls on the mutex in a list of effects: `true` for a lock, `false` for an unlock. -/
def mutexEvents : List Event → List Bool
  | [] => []
  | .lock :: rest => true :: mutexEvents rest
  | .unlock :: rest => false :: mutexEvents rest
  | _ :: rest => mutexEvents rest

/-! ## Subscribers that have stopped receiving -/

/-- How a call of a handler ends. -/
inductive Outcome where
  /-- the handler returns -/
  | returned
  /-- the handler waits for ever in the send `ch <- true` of line 92, holding the mutex -/
  | blocked (ch : Chan)
deriving DecidableEq, Repr

/-- The loop `for _, ch := range chs { ch <- true }` on channels made by
`make(chan bool)`, which have no buffer: a send completes only if somebody receives from
the channel, and `receiving ch` says whether somebody does. The result is the sends that
completed, and how the loop ends: it has served every channel, or it is stuck in the send
on the first channel nobody receives from, the later channels not served. -/
def sendUntilBlocked (receiving : Chan → Bool) : List Chan → List Event × Outcome
  | [] => ([], .returned)
  | ch :: chs =>
    if receiving ch = true then
      (.send ch true :: (sendUntilBlocked receiving chs).1, (sendUntilBlocked receiving chs).2)
    else
      ([], .blocked ch)

/-- The handler `callback` when subscribers may have stopped receiving: the state the mux
is left in, the effects that took place, and how the call ends. When the loop of lines 91
to 93 is stuck, lines 94 and 95 are not reached: the registry is not reset and the mutex
is not released. -/
def ServeMux.callbackRecv {κ : Type} (receiving : Chan → Bool) (p : Provider) (now : Time)
    (r : Request) (s : ServeMux κ) : ServeMux κ × List Event × Outcome :=
  match r.ParseForm with
  | some err => (s, [.writeHeader 500, .printf "failed to parse form: %e\n" err], .returned)
  | none =>
    let requestToken := r.Form.Get oauthTokenParam
    let requestToken := if requestToken = "" then s.requestToken else requestToken
    let verifier := r.Form.Get oauthVerifierParam
    if requestToken = "" ∨ verifier = "" then
      (s, [.writeHeader 400], .returned)
    else
      match p.AccessToken requestToken s.requestSecret verifier with
      | .error err =>
        (s, [.accessToken requestToken s.requestSecret verifier, .writeHeader 500,
             .printf "failed to get access token: %e\n" err], .returned)
      | .ok (accessToken, accessSecret) =>
        let s := { s with token := NewToken accessToken accessSecret }
        let s := { s with gotTokenAt := now }
        match sendUntilBlocked receiving s.callbackChs with
        | (evs, .returned) =>
          ({ s with callbackChs := [] },
            [.accessToken requestToken s.requestSecret verifier, .lock] ++ evs ++ [.unlock],
            .returned)
        | (evs, .blocked ch) =>
          (s, [.accessToken requestToken s.requestSecret verifier, .lock] ++ evs, .blocked ch)

/-! ## Concrete inputs -/

/-- A configuration with both paths left empty. -/
def cfg0 : ServeMuxConfig Unit := { Config := (), LoginPath := "", CallbackPath := "" }

/-- A provider that answers every call. -/
def pOk : Provider :=
  { RequestToken := .ok ("rtok1", "rsec1")
    AuthorizationURL := fun t => .ok { text := "https://provider/auth?oauth_token=" ++ t }
    AccessToken := fun _ _ _ => .ok ("atok1", "asec1") }

/-- A provider that issues a request credential and then fails to build the URL. -/
def pFailUrl : Provider :=
  { RequestToken := .ok ("rtok2", "rsec2")
    AuthorizationURL := fun _ => .error "no url"
    AccessToken := fun _ _ _ => .error "no exchange" }

/-- A provider that fails every call. -/
def pFail : Provider :=
  { RequestToken := .error "no request token"
    AuthorizationURL := fun _ => .error "no url"
    AccessToken := fun _ _ _ => .error "no exchange" }

/-- A provider that issues a request credential with an empty token. -/
def pEmpty : Provider :=
  { RequestToken := .ok ("", "rsec3")
    AuthorizationURL := fun t => .ok { text := "https://provider/auth?oauth_token=" ++ t }
    AccessToken := fun _ _ _ => .ok ("atok1", "asec1") }

/-- The request `/callback?oauth_token=rtok1&oauth_verifier=v1`. -/
def reqBoth : Request :=
  { Form := { entries := [("oauth_token", ["rtok1"]), ("oauth_verifier", ["v1"])] }
    parseErr := none }

/-- The request `/callback?oauth_token=other&oauth_verifier=v1`. -/
def reqOther : Request :=
  { Form := { entries := [("oauth_token", ["other"]), ("oauth_verifier", ["v1"])] }
    parseErr := none }

/-- The request `/callback?oauth_verifier=v1`. -/
def reqVerifier : Request :=
  { Form := { entries := [("oauth_verifier", ["v1"])] }, parseErr := none }

/-- The request `/callback?oauth_token=rtok1`. -/
def reqNoVerifier : Request :=
  { Form := { entries := [("oauth_token", ["rtok1"])] }, parseErr := none }

/-- The request `/callback?a;b`: nothing parses and `ParseForm` returns an error. -/
def reqBad : Request :=
  { Form := { entries := [] }, parseErr := some "invalid semicolon separator in query" }

/-- The request `/callback?oauth_token=other&oauth_verifier=v1&a;b`: the two pairs parse
and `ParseForm` returns an error for the third. -/
def reqOtherBad : Request :=
  { Form := { entries := [("oauth_token", ["other"]), ("oauth_verifier", ["v1"])] }
    parseErr := some "invalid semicolon separator in query" }

/-- The request `/callback?oauth_verifier=v1&a;b`. -/
def reqVerifierBad : Request :=
  { Form := { entries := [("oauth_verifier", ["v1"])] }
    parseErr := some "invalid semicolon separator in query" }

/-- A mux in the middle of a flow, with a completed earlier flow and two subscribers. -/
def mux1 : ServeMux Unit :=
  { ServeMuxConfig := cfg0.setDefaults
    requestToken := "rtok1"
    requestSecret := "rsec1"
    token := NewToken "atok0" "asec0"
    gotTokenAt := 5
    callbackChs := [0, 1]
    chanCount := 2 }

/-- Somebody receives from handle 1; the subscriber holding handle 0 has given up. -/
def onlyHandle1 : Chan → Bool := fun ch => decide (ch = 1)

/-- Somebody receives from handle 0; the subscriber holding handle 1 has given up. -/
def onlyHandle0 : Chan → Bool := fun ch => decide (ch = 0)

/-! ## The handlers, case by case -/

theorem sends_append (xs ys : List Event) : sends (xs ++ ys) = sends xs ++ sends ys := by
  induction xs with
  | nil => rfl
  | cons x xs ih => cases x <;> simp [sends, ih]

theorem sends_sendAll (chs : List Chan) : sends (sendAll chs) = chs.map fun ch => (ch, true) := by
  induction chs with
  | nil => rfl
  | cons ch chs ih => simp [sendAll, sends, ih]

theorem count_map_true (chs : List Chan) (ch : Chan) :
    (chs.map fun c => (c, true)).count (ch, true) = chs.count ch := by
  induction chs with
  | nil => rfl
  | cons c cs ih =>
    by_cases hc : c = ch
    · subst hc
      simp [ih]
    · have hne : ((c, true) == (ch, true)) = false := by
        simp [hc]
      have hne2 : (c == ch) = false := by simp [hc]
      simp [List.count_cons, ih, hne, hne2]

theorem login_requestToken_error {κ : Type} (p : Provider) (s : ServeMux κ) (e : Error)
    (h : p.RequestToken = .error e) :
    s.login p = (s, [.requestToken, .writeHeader 500, .printf "failed to authorize: %e\n" e]) := by
  simp [ServeMux.login, ServeMux.authorize, h]

theorem login_url_error {κ : Type} (p : Provider) (s : ServeMux κ) (t sec : String) (e : Error)
    (h : p.RequestToken = .ok (t, sec)) (hu : p.AuthorizationURL t = .error e) :
    s.login p = ({ s with requestToken := t, requestSecret := sec },
      [.requestToken, .authorizationURL t, .writeHeader 500,
       .printf "failed to authorize: %e\n" e]) := by
  simp [ServeMux.login, ServeMux.authorize, h, hu]

theorem login_ok {κ : Type} (p : Provider) (s : ServeMux κ) (t sec : String) (u : URL)
    (h : p.RequestToken = .ok (t, sec)) (hu : p.AuthorizationURL t = .ok u) :
    s.login p = ({ s with requestToken := t, requestSecret := sec },
      [.requestToken, .authorizationURL t, .redirect u.text 302]) := by
  simp [ServeMux.login, ServeMux.authorize, h, hu]

theorem callback_parse_error {κ : Type} (p : Provider) (now : Time) (r : Request)
    (s : ServeMux κ) (e : Error) (h : r.parseErr = some e) :
    s.callback p now r = (s, [.writeHeader 500, .printf "failed to parse form: %e\n" e]) := by
  simp [ServeMux.callback, Request.ParseForm, h]

theorem callback_invalid {κ : Type} (p : Provider) (now : Time) (r : Request)
    (s : ServeMux κ) (h : r.parseErr = none)
    (hv : effectiveToken r s = "" ∨ r.Form.Get oauthVerifierParam = "") :
    s.callback p now r = (s, [.writeHeader 400]) := by
  unfold effectiveToken at hv
  simp [ServeMux.callback, Request.ParseForm, h, hv]

theorem callback_exchange_error {κ : Type} (p : Provider) (now : Time) (r : Request)
    (s : ServeMux κ) (e : Error) (h : r.parseErr = none)
    (ht : effectiveToken r s ≠ "") (hv : r.Form.Get oauthVerifierParam ≠ "")
    (hx : p.AccessToken (effectiveToken r s) s.requestSecret (r.Form.Get oauthVerifierParam)
      = .error e) :
    s.callback p now r = (s,
      [.accessToken (effectiveToken r s) s.requestSecret (r.Form.Get oauthVerifierParam),
       .writeHeader 500, .printf "failed to get access token: %e\n" e]) := by
  unfold effectiveToken at ht hx
  simp [ServeMux.callback, Request.ParseForm, h, ht, hv, hx, effectiveToken]

theorem callback_ok {κ : Type} (p : Provider) (now : Time) (r : Request)
    (s : ServeMux κ) (a b : String) (h : r.parseErr = none)
    (ht : effectiveToken r s ≠ "") (hv : r.Form.Get oauthVerifierParam ≠ "")
    (hx : p.AccessToken (effectiveToken r s) s.requestSecret (r.Form.Get oauthVerifierParam)
      = .ok (a, b)) :
    s.callback p now r =
      ({ s with token := NewToken a b, gotTokenAt := now, callbackChs := [] },
       [.accessToken (effectiveToken r s) s.requestSecret (r.Form.Get oauthVerifierParam),
        .lock] ++ sendAll s.callbackChs ++ [.unlock]) := by
  unfold effectiveToken at ht hx
  simp [ServeMux.callback, Request.ParseForm, h, ht, hv, hx, effectiveToken]

theorem status_sendAll_append (chs : List Chan) (evs : List Event) :
    status (sendAll chs ++ evs) = status evs := by
  induction chs with
  | nil => rfl
  | cons ch chs ih => simpa [sendAll, status] using ih

theorem exchanges_sendAll_append (chs : List Chan) (evs : List Event) :
    exchanges (sendAll chs ++ evs) = exchanges evs := by
  induction chs with
  | nil => rfl
  | cons ch chs ih => simpa [sendAll, exchanges] using ih

/-- The four ways a callback can go. -/
theorem callback_cases {κ : Type} (p : Provider) (now : Time) (r : Request) (s : ServeMux κ) :
    (∃ e, r.parseErr = some e ∧
      s.callback p now r = (s, [.writeHeader 500, .printf "failed to parse form: %e\n" e])) ∨
    (r.parseErr = none ∧ (effectiveToken r s = "" ∨ r.Form.Get oauthVerifierParam = "") ∧
      s.callback p now r = (s, [.writeHeader 400])) ∨
    (∃ e, r.parseErr = none ∧ effectiveToken r s ≠ "" ∧ r.Form.Get oauthVerifierParam ≠ "" ∧
      p.AccessToken (effectiveToken r s) s.requestSecret (r.Form.Get oauthVerifierParam)
        = .error e ∧
      s.callback p now r = (s,
        [.accessToken (effectiveToken r s) s.requestSecret (r.Form.Get oauthVerifierParam),
         .writeHeader 500, .printf "failed to get access token: %e\n" e])) ∨
    (∃ a b, r.parseErr = none ∧ effectiveToken r s ≠ "" ∧ r.Form.Get oauthVerifierParam ≠ "" ∧
      p.AccessToken (effectiveToken r s) s.requestSecret (r.Form.Get oauthVerifierParam)
        = .ok (a, b) ∧
      s.callback p now r =
        ({ s with token := NewToken a b, gotTokenAt := now, callbackChs := [] },
         [.accessToken (effectiveToken r s) s.requestSecret (r.Form.Get oauthVerifierParam),
          .lock] ++ sendAll s.callbackChs ++ [.unlock])) := by
  cases hp : r.parseErr with
  | some e => exact Or.inl ⟨e, rfl, callback_parse_error p now r s e hp⟩
  | none =>
    by_cases hv : effectiveToken r s = "" ∨ r.Form.Get oauthVerifierParam = ""
    · exact Or.inr (Or.inl ⟨rfl, hv, callback_invalid p now r s hp hv⟩)
    · have ht : effectiveToken r s ≠ "" := fun h => hv (Or.inl h)
      have hv2 : r.Form.Get oauthVerifierParam ≠ "" := fun h => hv (Or.inr h)
      cases hx : p.AccessToken (effectiveToken r s) s.requestSecret
          (r.Form.Get oauthVerifierParam) with
      | error e =>
        exact Or.inr (Or.inr (Or.inl
          ⟨e, rfl, ht, hv2, rfl, callback_exchange_error p now r s e hp ht hv2 hx⟩))
      | ok cred =>
        obtain ⟨a, b⟩ := cred
        exact Or.inr (Or.inr (Or.inr
          ⟨a, b, rfl, ht, hv2, rfl, callback_ok p now r s a b hp ht hv2 hx⟩))

theorem status_callback_ok (t sec v : String) (chs : List Chan) :
    status ([Event.accessToken t sec v, Event.lock] ++ sendAll chs ++ [Event.unlock]) = none := by
  have h := status_sendAll_append chs [Event.unlock]
  simpa [status] using h

/-- A login leaves everything but the request credential as it was. -/
theorem login_frame {κ : Type} (p : Provider) (s : ServeMux κ) :
    (s.login p).1.token = s.token ∧ (s.login p).1.gotTokenAt = s.gotTokenAt ∧
    (s.login p).1.callbackChs = s.callbackChs ∧ (s.login p).1.chanCount = s.chanCount ∧
    sends (s.login p).2 = [] := by
  cases hr : p.RequestToken with
  | error e => simp [login_requestToken_error p s e hr, sends]
  | ok cred =>
    obtain ⟨t, sec⟩ := cred
    cases hu : p.AuthorizationURL t with
    | error e => simp [login_url_error p s t sec e hr hu, sends]
    | ok u => simp [login_ok p s t sec u hr hu, sends]

/-- A callback that answers a status leaves the state as it was and sends nothing. -/
theorem callback_failed_frame {κ : Type} (p : Provider) (now : Time) (r : Request)
    (s : ServeMux κ) (h : status (s.callback p now r).2 ≠ none) :
    (s.callback p now r).1 = s ∧ sends (s.callback p now r).2 = [] := by
  rcases callback_cases p now r s with ⟨e, _, hc⟩ | ⟨_, _, hc⟩ | ⟨e, _, _, _, _, hc⟩ |
    ⟨a, b, _, _, _, _, hc⟩
  · simp [hc, sends]
  · simp [hc, sends]
  · simp [hc, sends]
  · rw [hc] at h
    exact absurd (status_callback_ok _ _ _ _) h

theorem failed_token {κ : Type} (s : ServeMux κ) (op : Op) (h : failed s op = true) :
    (step s op).1.token = s.token := by
  cases op with
  | login p => exact (login_frame p s).1
  | callback p now r =>
    have hne : status (s.callback p now r).2 ≠ none := by
      intro hn
      simp [failed, hn] at h
    simp [step, (callback_failed_frame p now r s hne).1]
  | Token => rfl
  | Callback => simp [failed] at h

theorem allFailed_token {κ : Type} (ops : List Op) (s : ServeMux κ)
    (h : allFailed s ops = true) : (run s ops).1.token = s.token := by
  induction ops generalizing s with
  | nil => rfl
  | cons op ops ih =>
    simp only [allFailed, Bool.and_eq_true] at h
    simp only [run]
    rw [ih (step s op).1 h.2, failed_token s op h.1]

/-- A callback that passes validation calls the exchange once, with the effective token,
the cached request secret and the verifier. -/
theorem callback_valid_exchanges {κ : Type} (p : Provider) (now : Time) (r : Request)
    (s : ServeMux κ) (h : r.parseErr = none) (ht : effectiveToken r s ≠ "")
    (hv : r.Form.Get oauthVerifierParam ≠ "") :
    exchanges (s.callback p now r).2
      = [(effectiveToken r s, s.requestSecret, r.Form.Get oauthVerifierParam)] := by
  cases hx : p.AccessToken (effectiveToken r s) s.requestSecret
      (r.Form.Get oauthVerifierParam) with
  | error e =>
    rw [callback_exchange_error p now r s e h ht hv hx]
    simp [exchanges]
  | ok cred =>
    obtain ⟨a, b⟩ := cred
    rw [callback_ok p now r s a b h ht hv hx]
    have := exchanges_sendAll_append s.callbackChs [Event.unlock]
    simpa [exchanges] using this

/-! ## Sequences of calls: the registry -/

theorem signalCount_append (ch : Chan) (xs ys : List Event) :
    signalCount ch (xs ++ ys) = signalCount ch xs + signalCount ch ys := by
  simp [signalCount, sends_append, List.countP_append]

theorem signalCount_of_sends_nil (ch : Chan) (evs : List Event) (h : sends evs = []) :
    signalCount ch evs = 0 := by
  simp [signalCount, h]

theorem countP_map_true (ch : Chan) (chs : List Chan) :
    (chs.map fun c => (c, true)).countP (fun x => x.1 = ch) = chs.count ch := by
  induction chs with
  | nil => rfl
  | cons c cs ih =>
    by_cases hc : c = ch
    · subst hc
      simp [ih]
    · have hne2 : (c == ch) = false := by simp [hc]
      simp [List.count_cons, ih, hc, hne2]

theorem signalCount_of_sends_map (ch : Chan) (evs : List Event) (chs : List Chan)
    (h : sends evs = chs.map fun c => (c, true)) : signalCount ch evs = chs.count ch := by
  rw [signalCount, h, countP_map_true]

theorem run_append {κ : Type} (xs ys : List Op) (s : ServeMux κ) :
    run s (xs ++ ys) = ((run (run s xs).1 ys).1, (run s xs).2 ++ (run (run s xs).1 ys).2) := by
  induction xs generalizing s with
  | nil => simp [run]
  | cons x xs ih => simp [run, ih]

/-- What one call does to the registry: a callback that completes the flow sends `true` to
every handle and empties the registry; any other call sends nothing and either leaves the
registry as it was or appends the channel it has just made. -/
theorem step_registry {κ : Type} (s : ServeMux κ) (op : Op) :
    (succeeded s op = true ∧ (step s op).1.callbackChs = [] ∧
      (step s op).1.chanCount = s.chanCount ∧
      sends (step s op).2 = s.callbackChs.map (fun c => (c, true))) ∨
    (succeeded s op = false ∧ sends (step s op).2 = [] ∧
      (((step s op).1.callbackChs = s.callbackChs ∧ (step s op).1.chanCount = s.chanCount) ∨
       ((step s op).1.callbackChs = s.callbackChs ++ [s.chanCount] ∧
        (step s op).1.chanCount = s.chanCount + 1))) := by
  cases op with
  | login p =>
    have hf := login_frame p s
    exact Or.inr ⟨rfl, hf.2.2.2.2, Or.inl ⟨hf.2.2.1, hf.2.2.2.1⟩⟩
  | callback p now r =>
    rcases callback_cases p now r s with ⟨e, _, hc⟩ | ⟨_, _, hc⟩ | ⟨e, _, _, _, _, hc⟩ |
      ⟨a, b, _, _, _, _, hc⟩
    · exact Or.inr ⟨by simp [succeeded, hc, status], by simp [step, hc, sends],
        Or.inl ⟨by simp [step, hc], by simp [step, hc]⟩⟩
    · exact Or.inr ⟨by simp [succeeded, hc, status], by simp [step, hc, sends],
        Or.inl ⟨by simp [step, hc], by simp [step, hc]⟩⟩
    · exact Or.inr ⟨by simp [succeeded, hc, status], by simp [step, hc, sends],
        Or.inl ⟨by simp [step, hc], by simp [step, hc]⟩⟩
    · refine Or.inl ⟨?_, by simp [step, hc], by simp [step, hc], ?_⟩
      · simp only [succeeded, hc, decide_eq_true_eq]
        exact status_callback_ok _ _ _ _
      · simp [step, hc, sends_append, sends, sends_sendAll]
  | Token => exact Or.inr ⟨rfl, rfl, Or.inl ⟨rfl, rfl⟩⟩
  | Callback => exact Or.inr ⟨rfl, rfl, Or.inr ⟨rfl, rfl⟩⟩

theorem wellFormed_new {κ : Type} (config : ServeMuxConfig κ) :
    WellFormed (NewServeMux config) := by
  simp [WellFormed, NewServeMux]

theorem wellFormed_step {κ : Type} (s : ServeMux κ) (op : Op) (h : WellFormed s) :
    WellFormed (step s op).1 ∧ s.chanCount ≤ (step s op).1.chanCount := by
  obtain ⟨hnd, hlt⟩ := h
  rcases step_registry s op with ⟨_, hr, hc, _⟩ | ⟨_, _, ⟨hr, hc⟩ | ⟨hr, hc⟩⟩
  · exact ⟨by simp [WellFormed, hr], by omega⟩
  · exact ⟨by simpa [WellFormed, hr, hc] using ⟨hnd, hlt⟩, by omega⟩
  · refine ⟨⟨?_, ?_⟩, by omega⟩
    · rw [hr]
      refine List.Nodup.append hnd (List.nodup_singleton _) ?_
      intro c hc1 hc2
      have hlt1 := hlt c hc1
      simp only [List.mem_singleton] at hc2
      rw [hc2] at hlt1
      exact Nat.lt_irrefl _ hlt1
    · intro c hmem
      rw [hr] at hmem
      rw [hc]
      rcases List.mem_append.mp hmem with hm | hm
      · exact Nat.lt_succ_of_lt (hlt c hm)
      · simp only [List.mem_singleton] at hm
        rw [hm]
        exact Nat.lt_succ_self _

theorem wellFormed_run {κ : Type} (ops : List Op) (s : ServeMux κ) (h : WellFormed s) :
    WellFormed (run s ops).1 := by
  induction ops generalizing s with
  | nil => exact h
  | cons op ops ih => exact ih _ (wellFormed_step s op h).1

/-- A channel made earlier that is not in the registry is never sent anything again. -/
theorem signalCount_run_of_not_mem {κ : Type} (ops : List Op) (s : ServeMux κ) (ch : Nat)
    (hlt : ch < s.chanCount) (hnm : ch ∉ s.callbackChs) :
    signalCount ch (run s ops).2 = 0 := by
  induction ops generalizing s with
  | nil => rfl
  | cons op ops ih =>
    simp only [run, signalCount_append]
    rcases step_registry s op with ⟨_, hr, hc, hs⟩ | ⟨_, hs, ⟨hr, hc⟩ | ⟨hr, hc⟩⟩
    · rw [signalCount_of_sends_map ch _ _ hs, List.count_eq_zero_of_not_mem hnm,
        ih _ (by omega) (by simp [hr])]
    · rw [signalCount_of_sends_nil ch _ hs, ih _ (by omega) (by rw [hr]; exact hnm)]
    · rw [signalCount_of_sends_nil ch _ hs, ih _ (by omega)]
      rw [hr]
      intro hmem
      rcases List.mem_append.mp hmem with hm | hm
      · exact hnm hm
      · simp only [List.mem_singleton] at hm
        rw [hm] at hlt
        exact Nat.lt_irrefl _ hlt

/-- A registered handle is sent one value over a sequence of calls in which some callback
completes the flow, and none, staying registered, over a sequence in which none does. -/
theorem signalCount_run_of_mem {κ : Type} (ops : List Op) (s : ServeMux κ) (ch : Nat)
    (hwf : WellFormed s) (hm : ch ∈ s.callbackChs) :
    signalCount ch (run s ops).2 = (if anySucceeded s ops = true then 1 else 0) ∧
    (anySucceeded s ops = false → ch ∈ (run s ops).1.callbackChs) := by
  induction ops generalizing s with
  | nil => exact ⟨rfl, fun _ => hm⟩
  | cons op ops ih =>
    have hwf1 := (wellFormed_step s op hwf).1
    simp only [run, signalCount_append, anySucceeded]
    rcases step_registry s op with ⟨hsu, hr, hc, hs⟩ | ⟨hsu, hs, ⟨hr, hc⟩ | ⟨hr, hc⟩⟩
    · have hlt : ch < (step s op).1.chanCount := by
        have := hwf.2 ch hm
        omega
      rw [signalCount_of_sends_map ch _ _ hs, List.count_eq_one_of_mem hwf.1 hm,
        signalCount_run_of_not_mem ops _ ch hlt (by simp [hr])]
      simp [hsu]
    · have hm1 : ch ∈ (step s op).1.callbackChs := by rw [hr]; exact hm
      have := ih _ hwf1 hm1
      rw [signalCount_of_sends_nil ch _ hs, this.1]
      simpa [hsu] using this.2
    · have hm1 : ch ∈ (step s op).1.callbackChs := by
        rw [hr]; exact List.mem_append_left _ hm
      have := ih _ hwf1 hm1
      rw [signalCount_of_sends_nil ch _ hs, this.1]
      simpa [hsu] using this.2

/-- Every value sent during a sequence of calls is `true`. -/
theorem sends_run_true {κ : Type} (ops : List Op) (s : ServeMux κ) :
    ∀ x ∈ sends (run s ops).2, x.2 = true := by
  induction ops generalizing s with
  | nil => intro x hx; simp [run, sends] at hx
  | cons op ops ih =>
    intro x hx
    simp only [run, sends_append, List.mem_append] at hx
    rcases hx with hx | hx
    · rcases step_registry s op with ⟨_, _, _, hs⟩ | ⟨_, hs, _⟩
      · rw [hs] at hx
        simp only [List.mem_map] at hx
        obtain ⟨c, _, rfl⟩ := hx
        rfl
      · rw [hs] at hx
        simp at hx
    · exact ih _ x hx

theorem login_request_credential {κ : Type} (p : Provider) (s : ServeMux κ) (t sec : String)
    (h : p.RequestToken = .ok (t, sec)) :
    (s.login p).1.requestToken = t ∧ (s.login p).1.requestSecret = sec := by
  cases hu : p.AuthorizationURL t with
  | error e => simp [login_url_error p s t sec e h hu]
  | ok u => simp [login_ok p s t sec u h hu]

/-- A callback answers 400 exactly when the form parses and the effective token or the
verifier is empty. -/
theorem callback_status_400_iff {κ : Type} (p : Provider) (now : Time) (r : Request)
    (s : ServeMux κ) :
    status (s.callback p now r).2 = some 400 ↔
      r.parseErr = none ∧ (effectiveToken r s = "" ∨ r.Form.Get oauthVerifierParam = "") := by
  rcases callback_cases p now r s with ⟨e, hp, hc⟩ | ⟨hp, hv, hc⟩ | ⟨e, hp, ht, hv, _, hc⟩ |
    ⟨a, b, hp, ht, hv, _, hc⟩
  · simp [hc, status, hp]
  · simp [hc, status, hp, hv]
  · simp [hc, status, hp, ht, hv]
  · rw [hc, status_callback_ok]
    simp [hp, ht, hv]

/-- A callback answers 500 exactly when the form does not parse, or validation passes and
the exchange fails. -/
theorem callback_status_500_iff {κ : Type} (p : Provider) (now : Time) (r : Request)
    (s : ServeMux κ) :
    status (s.callback p now r).2 = some 500 ↔
      r.parseErr ≠ none ∨
      (r.parseErr = none ∧ effectiveToken r s ≠ "" ∧ r.Form.Get oauthVerifierParam ≠ "" ∧
        ∃ e, p.AccessToken (effectiveToken r s) s.requestSecret
          (r.Form.Get oauthVerifierParam) = .error e) := by
  rcases callback_cases p now r s with ⟨e, hp, hc⟩ | ⟨hp, hv, hc⟩ | ⟨e, hp, ht, hv, hx, hc⟩ |
    ⟨a, b, hp, ht, hv, hx, hc⟩
  · simp [hc, status, hp]
  · have hno : ¬ (effectiveToken r s ≠ "" ∧ r.Form.Get oauthVerifierParam ≠ "" ∧
        ∃ e, p.AccessToken (effectiveToken r s) s.requestSecret
          (r.Form.Get oauthVerifierParam) = .error e) := by
      rintro ⟨h1, h2, _⟩
      rcases hv with hv | hv
      · exact h1 hv
      · exact h2 hv
    simp [hc, status, hp, hno]
  · simp [hc, status, hp, ht, hv, hx]
  · rw [hc, status_callback_ok]
    simp [hp, ht, hv, hx]

/-- A call that is not a callback completing the flow leaves the access credential. -/
theorem step_token_of_not_succeeded {κ : Type} (s : ServeMux κ) (op : Op)
    (h : succeeded s op = false) :
    (step s op).1.token = s.token ∧ (step s op).1.gotTokenAt = s.gotTokenAt := by
  cases op with
  | login p => exact ⟨(login_frame p s).1, (login_frame p s).2.1⟩
  | callback p now r =>
    have hne : status (s.callback p now r).2 ≠ none := by
      intro hn
      simp [succeeded, hn] at h
    simp [step, (callback_failed_frame p now r s hne).1]
  | Token => exact ⟨rfl, rfl⟩
  | Callback => exact ⟨rfl, rfl⟩

theorem run_token_of_none_succeeded {κ : Type} (ops : List Op) (s : ServeMux κ)
    (h : anySucceeded s ops = false) : (run s ops).1.token = s.token := by
  induction ops generalizing s with
  | nil => rfl
  | cons op ops ih =>
    simp only [anySucceeded, Bool.or_eq_false_iff] at h
    simp only [run]
    rw [ih (step s op).1 h.2, (step_token_of_not_succeeded s op h.1).1]

/-- The registry after a sequence of calls holds the handles returned by the `Callback()`
calls made since the last callback that completed the flow. -/
theorem run_callbackChs_eq_pendingHandles {κ : Type} (ops : List Op) (s : ServeMux κ)
    (acc : List Chan) (h : s.callbackChs = acc) :
    (run s ops).1.callbackChs = pendingHandles s acc ops := by
  induction ops generalizing s acc with
  | nil => exact h
  | cons op ops ih =>
    cases op with
    | Callback =>
      simp only [run, pendingHandles]
      apply ih
      rw [← h]
      rfl
    | Token =>
      simp only [run, pendingHandles]
      have hs : succeeded s Op.Token = false := rfl
      simp only [hs, Bool.false_eq_true, if_false]
      exact ih _ _ h
    | login p =>
      simp only [run, pendingHandles]
      have hs : succeeded s (Op.login p) = false := rfl
      simp only [hs, Bool.false_eq_true, if_false]
      apply ih
      rw [← h]
      exact (login_frame p s).2.2.1
    | callback p now r =>
      simp only [run, pendingHandles]
      cases hs : succeeded s (Op.callback p now r) with
      | true =>
        simp only [if_true]
        apply ih
        rcases step_registry s (Op.callback p now r) with ⟨_, hr, _, _⟩ | ⟨hf, _, _⟩
        · exact hr
        · rw [hs] at hf
          exact absurd hf (by decide)
      | false =>
        simp only [Bool.false_eq_true, if_false]
        apply ih
        have hne : status (s.callback p now r).2 ≠ none := by
          intro hn
          simp [succeeded, hn] at hs
        simp [step, (callback_failed_frame p now r s hne).1, h]

/-- No channel is sent more than one value over a sequence of calls. -/
theorem signalCount_run_le_one {κ : Type} (ops : List Op) (s : ServeMux κ) (ch : Nat)
    (hwf : WellFormed s) : signalCount ch (run s ops).2 ≤ 1 := by
  induction ops generalizing s with
  | nil => simp [run, signalCount, sends]
  | cons op ops ih =>
    have hwf1 := (wellFormed_step s op hwf).1
    simp only [run, signalCount_append]
    rcases step_registry s op with ⟨_, hr, hc, hs⟩ | ⟨_, hs, _⟩
    · rw [signalCount_of_sends_map ch _ _ hs]
      by_cases hm : ch ∈ s.callbackChs
      · have hlt : ch < (step s op).1.chanCount := by
          have := hwf.2 ch hm
          omega
        rw [List.count_eq_one_of_mem hwf.1 hm,
          signalCount_run_of_not_mem ops _ ch hlt (by simp [hr])]
      · rw [List.count_eq_zero_of_not_mem hm]
        have := ih _ hwf1
        omega
    · rw [signalCount_of_sends_nil ch _ hs]
      have := ih _ hwf1
      omega

theorem callbackTimed_parse_error {κ : Type} (p : Provider) (now : Time) (r : Request)
    (s : ServeMux κ) (e : Error) (h : r.parseErr = some e) :
    s.callbackTimed p now r
      = [(.writeHeader 500, s), (.printf "failed to parse form: %e\n" e, s)] := by
  simp [ServeMux.callbackTimed, Request.ParseForm, h]

theorem callbackTimed_invalid {κ : Type} (p : Provider) (now : Time) (r : Request)
    (s : ServeMux κ) (h : r.parseErr = none)
    (hv : effectiveToken r s = "" ∨ r.Form.Get oauthVerifierParam = "") :
    s.callbackTimed p now r = [(.writeHeader 400, s)] := by
  unfold effectiveToken at hv
  simp [ServeMux.callbackTimed, Request.ParseForm, h, hv]

theorem callbackTimed_exchange_error {κ : Type} (p : Provider) (now : Time) (r : Request)
    (s : ServeMux κ) (e : Error) (h : r.parseErr = none)
    (ht : effectiveToken r s ≠ "") (hv : r.Form.Get oauthVerifierParam ≠ "")
    (hx : p.AccessToken (effectiveToken r s) s.requestSecret (r.Form.Get oauthVerifierParam)
      = .error e) :
    s.callbackTimed p now r =
      [(.accessToken (effectiveToken r s) s.requestSecret (r.Form.Get oauthVerifierParam), s),
       (.writeHeader 500, s), (.printf "failed to get access token: %e\n" e, s)] := by
  unfold effectiveToken at ht hx
  simp [ServeMux.callbackTimed, Request.ParseForm, h, ht, hv, hx, effectiveToken]

theorem callbackTimed_ok {κ : Type} (p : Provider) (now : Time) (r : Request)
    (s : ServeMux κ) (a b : String) (h : r.parseErr = none)
    (ht : effectiveToken r s ≠ "") (hv : r.Form.Get oauthVerifierParam ≠ "")
    (hx : p.AccessToken (effectiveToken r s) s.requestSecret (r.Form.Get oauthVerifierParam)
      = .ok (a, b)) :
    s.callbackTimed p now r =
      [(.accessToken (effectiveToken r s) s.requestSecret (r.Form.Get oauthVerifierParam), s),
       (.lock, { s with token := NewToken a b, gotTokenAt := now })]
        ++ (sendAll s.callbackChs).map
            (fun ev => (ev, { s with token := NewToken a b, gotTokenAt := now }))
        ++ [(.unlock, { s with token := NewToken a b, gotTokenAt := now, callbackChs := [] })] := by
  unfold effectiveToken at ht hx
  simp [ServeMux.callbackTimed, Request.ParseForm, h, ht, hv, hx, effectiveToken]

/-- The effects of `callbackTimed` are those of `callback`, in the same order. -/
theorem callbackTimed_events {κ : Type} (p : Provider) (now : Time) (r : Request)
    (s : ServeMux κ) :
    (s.callbackTimed p now r).map Prod.fst = (s.callback p now r).2 := by
  rcases callback_cases p now r s with ⟨e, hp, hc⟩ | ⟨hp, hv, hc⟩ | ⟨e, hp, ht, hv, hx, hc⟩ |
    ⟨a, b, hp, ht, hv, hx, hc⟩
  · rw [hc, callbackTimed_parse_error p now r s e hp]
    rfl
  · rw [hc, callbackTimed_invalid p now r s hp hv]
    rfl
  · rw [hc, callbackTimed_exchange_error p now r s e hp ht hv hx]
    rfl
  · rw [hc, callbackTimed_ok p now r s a b hp ht hv hx]
    simp [List.map_map, Function.comp_def]

/-- The state in which the last effect of `callbackTimed` takes place is the state
`callback` returns. -/
theorem callbackTimed_last_state {κ : Type} (p : Provider) (now : Time) (r : Request)
    (s : ServeMux κ) :
    (s.callbackTimed p now r).getLast?.map Prod.snd = some (s.callback p now r).1 := by
  rcases callback_cases p now r s with ⟨e, hp, hc⟩ | ⟨hp, hv, hc⟩ | ⟨e, hp, ht, hv, hx, hc⟩ |
    ⟨a, b, hp, ht, hv, hx, hc⟩
  · rw [hc, callbackTimed_parse_error p now r s e hp]
    rfl
  · rw [hc, callbackTimed_invalid p now r s hp hv]
    rfl
  · rw [hc, callbackTimed_exchange_error p now r s e hp ht hv hx]
    rfl
  · rw [hc, callbackTimed_ok p now r s a b hp ht hv hx, List.getLast?_append]
    rfl

theorem mutexEvents_sendAll_append (chs : List Chan) (evs : List Event) :
    mutexEvents (sendAll chs ++ evs) = mutexEvents evs := by
  induction chs with
  | nil => rfl
  | cons ch chs ih => simpa [sendAll, mutexEvents] using ih

theorem mutexCalls_append_of_nil (xs ys : List Access) (h : mutexCalls xs = []) :
    mutexCalls (xs ++ ys) = mutexCalls ys := by
  induction xs with
  | nil => rfl
  | cons x xs ih =>
    cases x with
    | read f => simpa [mutexCalls] using ih (by simpa [mutexCalls] using h)
    | write f => simpa [mutexCalls] using ih (by simpa [mutexCalls] using h)
    | lock => simp [mutexCalls] at h
    | unlock => simp [mutexCalls] at h

/-- The accesses of a callback, in each of the four ways it can go. -/
theorem callbackAccesses_cases {κ : Type} (p : Provider) (r : Request) (s : ServeMux κ) :
    ((r.parseErr ≠ none ∧ callbackAccesses p r s = []) ∨
     (r.parseErr = none ∧
        (effectiveToken r s = "" ∨ r.Form.Get oauthVerifierParam = "") ∧
        callbackAccesses p r s
          = (if r.Form.Get oauthTokenParam = "" then [Access.read .requestToken] else [])) ∨
     (r.parseErr = none ∧ effectiveToken r s ≠ "" ∧ r.Form.Get oauthVerifierParam ≠ "" ∧
        (∃ e, p.AccessToken (effectiveToken r s) s.requestSecret
          (r.Form.Get oauthVerifierParam) = .error e) ∧
        callbackAccesses p r s
          = (if r.Form.Get oauthTokenParam = "" then [Access.read .requestToken] else [])
            ++ [.read .requestSecret]) ∨
     (r.parseErr = none ∧ effectiveToken r s ≠ "" ∧ r.Form.Get oauthVerifierParam ≠ "" ∧
        (∃ a b, p.AccessToken (effectiveToken r s) s.requestSecret
          (r.Form.Get oauthVerifierParam) = .ok (a, b)) ∧
        callbackAccesses p r s
          = (if r.Form.Get oauthTokenParam = "" then [Access.read .requestToken] else [])
            ++ [.read .requestSecret, .write .token, .write .gotTokenAt,
                .lock, .read .callbackChs, .write .callbackChs, .unlock])) := by
  cases hp : r.parseErr with
  | some e =>
    exact Or.inl ⟨by simp, by simp [callbackAccesses, Request.ParseForm, hp]⟩
  | none =>
    by_cases hv : effectiveToken r s = "" ∨ r.Form.Get oauthVerifierParam = ""
    · refine Or.inr (Or.inl ⟨rfl, hv, ?_⟩)
      unfold effectiveToken at hv
      simp [callbackAccesses, Request.ParseForm, hp, hv]
    · have ht : effectiveToken r s ≠ "" := fun h => hv (Or.inl h)
      have hv2 : r.Form.Get oauthVerifierParam ≠ "" := fun h => hv (Or.inr h)
      cases hx : p.AccessToken (effectiveToken r s) s.requestSecret
          (r.Form.Get oauthVerifierParam) with
      | error e =>
        refine Or.inr (Or.inr (Or.inl ⟨rfl, ht, hv2, ⟨e, rfl⟩, ?_⟩))
        unfold effectiveToken at ht hx
        simp [callbackAccesses, Request.ParseForm, hp, ht, hv2, hx]
      | ok cred =>
        refine Or.inr (Or.inr (Or.inr ⟨rfl, ht, hv2, ⟨cred.1, cred.2, rfl⟩, ?_⟩))
        unfold effectiveToken at ht hx
        simp [callbackAccesses, Request.ParseForm, hp, ht, hv2, hx]

/-- The accesses listed for a call take and release the mutex as the effects of the call do. -/
theorem mutexCalls_accesses {κ : Type} (s : ServeMux κ) (op : Op) :
    mutexCalls (accesses s op) = mutexEvents (step s op).2 := by
  cases op with
  | login p =>
    cases hr : p.RequestToken with
    | error e =>
      simp [accesses, loginAccesses, authorizeAccesses, hr, step,
        login_requestToken_error p s e hr, mutexCalls, mutexEvents]
    | ok cred =>
      obtain ⟨t, sec⟩ := cred
      cases hu : p.AuthorizationURL t with
      | error e =>
        simp [accesses, loginAccesses, authorizeAccesses, hr, step,
          login_url_error p s t sec e hr hu, mutexCalls, mutexEvents]
      | ok u =>
        simp [accesses, loginAccesses, authorizeAccesses, hr, step,
          login_ok p s t sec u hr hu, mutexCalls, mutexEvents]
  | callback p now r =>
    have hreads : mutexCalls
        (if r.Form.Get oauthTokenParam = "" then [Access.read Field.requestToken] else [])
          = [] := by
      split <;> rfl
    simp only [accesses, step]
    rcases callbackAccesses_cases p r s with ⟨hp, ha⟩ | ⟨hp, hv, ha⟩ | ⟨hp, ht, hv, ⟨e, hx⟩, ha⟩ |
      ⟨hp, ht, hv, ⟨a, b, hx⟩, ha⟩
    · obtain ⟨e, he⟩ := Option.ne_none_iff_exists'.mp hp
      rw [ha, callback_parse_error p now r s e he]
      rfl
    · rw [ha, callback_invalid p now r s hp hv, hreads]
      rfl
    · rw [ha, callback_exchange_error p now r s e hp ht hv hx,
        mutexCalls_append_of_nil _ _ hreads]
      rfl
    · rw [ha, callback_ok p now r s a b hp ht hv hx, mutexCalls_append_of_nil _ _ hreads]
      have := (mutexEvents_sendAll_append s.callbackChs [Event.unlock]).symm
      simpa [mutexCalls, mutexEvents] using this
  | Token => rfl
  | Callback => rfl

/-- Every field a call changes is among the fields the accesses listed for the call write. -/
theorem accesses_cover_writes {κ : Type} (s : ServeMux κ) (op : Op) :
    ((step s op).1.requestToken ≠ s.requestToken →
      Access.write .requestToken ∈ accesses s op) ∧
    ((step s op).1.requestSecret ≠ s.requestSecret →
      Access.write .requestSecret ∈ accesses s op) ∧
    ((step s op).1.token ≠ s.token → Access.write .token ∈ accesses s op) ∧
    ((step s op).1.gotTokenAt ≠ s.gotTokenAt → Access.write .gotTokenAt ∈ accesses s op) ∧
    ((step s op).1.callbackChs ≠ s.callbackChs →
      Access.write .callbackChs ∈ accesses s op) := by
  cases op with
  | login p =>
    cases hr : p.RequestToken with
    | error e =>
      simp [step, login_requestToken_error p s e hr]
    | ok cred =>
      have hf := login_frame p s
      simp [step, accesses, loginAccesses, authorizeAccesses, hr, hf.1, hf.2.1, hf.2.2.1]
  | callback p now r =>
    simp only [accesses, step]
    rcases callback_cases p now r s with ⟨e, hp, hc⟩ | ⟨hp, hv, hc⟩ | ⟨e, hp, ht, hv, hx, hc⟩ |
      ⟨a, b, hp, ht, hv, hx, hc⟩
    · simp [hc]
    · simp [hc]
    · simp [hc]
    · rcases callbackAccesses_cases p r s with ⟨hp2, _⟩ | ⟨_, hv2, _⟩ | ⟨_, _, _, ⟨e, hx2⟩, _⟩ |
        ⟨_, _, _, _, ha⟩
      · exact absurd hp hp2
      · rcases hv2 with h1 | h1
        · exact absurd h1 ht
        · exact absurd h1 hv
      · rw [hx] at hx2
        exact absurd hx2 (by simp)
      · rw [ha, hc]
        simp
  | Token => simp [step]
  | Callback => simp [step, accesses, subscribeAccesses, ServeMux.Callback]

/-- The loop sends to the handles up to the first one nobody receives from, and is stuck
there; it ends when somebody receives from every handle. -/
theorem sendUntilBlocked_spec (receiving : Chan → Bool) (chs : List Chan) :
    sends (sendUntilBlocked receiving chs).1
      = (chs.takeWhile receiving).map (fun ch => (ch, true)) ∧
    (sendUntilBlocked receiving chs).2
      = (match chs.dropWhile receiving with
         | [] => Outcome.returned
         | ch :: _ => Outcome.blocked ch) := by
  induction chs with
  | nil => exact ⟨rfl, rfl⟩
  | cons ch chs ih =>
    by_cases hr : receiving ch = true
    · simp [sendUntilBlocked, hr, sends, List.takeWhile_cons, List.dropWhile_cons, ih.1, ih.2]
    · simp [sendUntilBlocked, hr, sends, List.takeWhile_cons, List.dropWhile_cons]

theorem sendUntilBlocked_of_all_receiving (receiving : Chan → Bool) (chs : List Chan)
    (h : ∀ ch ∈ chs, receiving ch = true) :
    sendUntilBlocked receiving chs = (sendAll chs, Outcome.returned) := by
  induction chs with
  | nil => rfl
  | cons ch chs ih =>
    have h1 : receiving ch = true := h ch (List.mem_cons_self _ _)
    have h2 := ih (fun c hc => h c (List.mem_cons_of_mem _ hc))
    simp [sendUntilBlocked, h1, h2, sendAll]

/-- When somebody receives from every handle of the registry, the handler ends as
`callback` says: same state, same effects, and it returns. -/
theorem callbackRecv_eq_callback {κ : Type} (receiving : Chan → Bool) (p : Provider)
    (now : Time) (r : Request) (s : ServeMux κ)
    (h : ∀ ch ∈ s.callbackChs, receiving ch = true) :
    s.callbackRecv receiving p now r
      = ((s.callback p now r).1, (s.callback p now r).2, Outcome.returned) := by
  have hs := sendUntilBlocked_of_all_receiving receiving s.callbackChs h
  rcases callback_cases p now r s with ⟨e, hp, hc⟩ | ⟨hp, hv, hc⟩ | ⟨e, hp, ht, hv, hx, hc⟩ |
    ⟨a, b, hp, ht, hv, hx, hc⟩
  · rw [hc]
    simp [ServeMux.callbackRecv, Request.ParseForm, hp]
  · rw [hc]
    unfold effectiveToken at hv
    simp [ServeMux.callbackRecv, Request.ParseForm, hp, hv]
  · rw [hc]
    unfold effectiveToken at ht hx
    simp [ServeMux.callbackRecv, Request.ParseForm, hp, ht, hv, hx, effectiveToken]
  · rw [hc]
    unfold effectiveToken at ht hx
    simp [ServeMux.callbackRecv, Request.ParseForm, hp, ht, hv, hx, effectiveToken, hs]

/-- A callback whose exchange succeeds, whatever the subscribers do: the credential is
stored, and the drain either serves every handle, resets the registry and releases the
mutex, or is stuck in a send with the registry as it was and the mutex held. -/
theorem callbackRecv_ok {κ : Type} (receiving : Chan → Bool) (p : Provider) (now : Time)
    (r : Request) (s : ServeMux κ) (a b : String) (h : r.parseErr = none)
    (ht : effectiveToken r s ≠ "") (hv : r.Form.Get oauthVerifierParam ≠ "")
    (hx : p.AccessToken (effectiveToken r s) s.requestSecret (r.Form.Get oauthVerifierParam)
      = .ok (a, b)) :
    s.callbackRecv receiving p now r =
      (match sendUntilBlocked receiving s.callbackChs with
       | (evs, Outcome.returned) =>
         ({ s with token := NewToken a b, gotTokenAt := now, callbackChs := [] },
          [Event.accessToken (effectiveToken r s) s.requestSecret
              (r.Form.Get oauthVerifierParam), Event.lock] ++ evs ++ [Event.unlock],
          Outcome.returned)
       | (evs, Outcome.blocked ch) =>
         ({ s with token := NewToken a b, gotTokenAt := now },
          [Event.accessToken (effectiveToken r s) s.requestSecret
              (r.Form.Get oauthVerifierParam), Event.lock] ++ evs,
          Outcome.blocked ch)) := by
  unfold effectiveToken at ht hx
  simp [ServeMux.callbackRecv, Request.ParseForm, h, ht, hv, hx, effectiveToken]

/-! ## Login failures -/

/-- C1, as stated, fails: when `RequestToken` succeeds and `AuthorizationURL` fails, the
login answers 500 and the request credential of the Flow State has been overwritten. -/
theorem login_url_failure_changes_flow_state :
    pFailUrl.RequestToken = .ok ("rtok2", "rsec2") ∧
    pFailUrl.AuthorizationURL "rtok2" = .error "no url" ∧
    status (mux1.login pFailUrl).2 = some 500 ∧
    mux1.flowState = ("rtok1", "rsec1", NewToken "atok0" "asec0", 5) ∧
    (mux1.login pFailUrl).1.flowState = ("rtok2", "rsec2", NewToken "atok0" "asec0", 5) ∧
    (mux1.login pFailUrl).1.flowState ≠ mux1.flowState :=
  ⟨rfl, rfl, by decide, by decide, by decide, by decide⟩

/-- C1, amended: a login that fails answers 500 and leaves the access credential and its
time as they were; when `RequestToken` fails the whole Flow State is as it was, and when
`RequestToken` returns `(t, sec)` and `AuthorizationURL` fails the request credential
is `(t, sec)`. -/
theorem login_failure_flow_state {κ : Type} (p : Provider) (s : ServeMux κ) (e : Error)
    (hfail : (s.authorize p).2.2 = .error e) :
    status (s.login p).2 = some 500 ∧
    (s.login p).1.token = s.token ∧ (s.login p).1.gotTokenAt = s.gotTokenAt ∧
    (p.RequestToken = .error e → (s.login p).1.flowState = s.flowState) ∧
    (∀ t sec, p.RequestToken = .ok (t, sec) →
      p.AuthorizationURL t = .error e ∧
      (s.login p).1.flowState = (t, sec, s.token, s.gotTokenAt)) := by
  cases hr : p.RequestToken with
  | error e1 =>
    simp [login_requestToken_error p s e1 hr, status]
  | ok cred =>
    obtain ⟨t, sec⟩ := cred
    have hu : p.AuthorizationURL t = .error e := by
      simpa [ServeMux.authorize, hr] using hfail
    simp [login_url_error p s t sec e hr hu, status, ServeMux.flowState, hu]

theorem login_failure_flow_state_witness :
    status (mux1.login pFailUrl).2 = some 500 ∧
    (mux1.login pFailUrl).1.token = mux1.token ∧
    (mux1.login pFailUrl).1.gotTokenAt = mux1.gotTokenAt ∧
    (pFailUrl.RequestToken = .error "no url" →
      (mux1.login pFailUrl).1.flowState = mux1.flowState) ∧
    (∀ t sec, pFailUrl.RequestToken = .ok (t, sec) →
      pFailUrl.AuthorizationURL t = .error "no url" ∧
      (mux1.login pFailUrl).1.flowState = (t, sec, mux1.token, mux1.gotTokenAt)) :=
  login_failure_flow_state pFailUrl mux1 "no url" rfl

/-! ## Callbacks without a verifier -/

/-- C2, as stated, fails: a callback without `oauth_verifier` whose form does not parse
answers 500, not 400. -/
theorem callback_no_verifier_parse_error_500 :
    reqBad.Form.Get oauthVerifierParam = "" ∧
    status (mux1.callback pOk 9 reqBad).2 = some 500 ∧
    status (mux1.callback pOk 9 reqBad).2 ≠ some 400 := by
  decide

/-- C2, amended: a callback whose `oauth_verifier` is missing or empty answers 400 when
the form parses and 500 when it does not; in both cases the exchange is not called and
the state (access credential, request credential, registry) is as it was. -/
theorem callback_no_verifier {κ : Type} (p : Provider) (now : Time) (r : Request)
    (s : ServeMux κ) (hv : r.Form.Get oauthVerifierParam = "") :
    (r.parseErr = none → status (s.callback p now r).2 = some 400) ∧
    (r.parseErr ≠ none → status (s.callback p now r).2 = some 500) ∧
    exchanges (s.callback p now r).2 = [] ∧
    sends (s.callback p now r).2 = [] ∧
    (s.callback p now r).1 = s := by
  cases hp : r.parseErr with
  | some e => simp [callback_parse_error p now r s e hp, status, exchanges, sends]
  | none => simp [callback_invalid p now r s hp (Or.inr hv), status, exchanges, sends]

theorem callback_no_verifier_witness :
    (reqNoVerifier.parseErr = none → status (mux1.callback pOk 9 reqNoVerifier).2 = some 400) ∧
    (reqNoVerifier.parseErr ≠ none → status (mux1.callback pOk 9 reqNoVerifier).2 = some 500) ∧
    exchanges (mux1.callback pOk 9 reqNoVerifier).2 = [] ∧
    sends (mux1.callback pOk 9 reqNoVerifier).2 = [] ∧
    (mux1.callback pOk 9 reqNoVerifier).1 = mux1 :=
  callback_no_verifier pOk 9 reqNoVerifier mux1 (by decide)

/-! ## Successful callbacks -/

/-- C3: the code does not do what the claim says once a subscriber has stopped receiving.
On the registry `[0, 1]`, with somebody receiving from handle 1 and nobody from handle 0,
a callback whose form parses, whose token and verifier are not empty and whose exchange
succeeds stores the credential and then waits for ever in the send to handle 0, holding
the mutex: no send completes, handle 1 is sent nothing, and the registry is not emptied. -/
theorem callback_blocks_on_unreceived_handle :
    mux1.callbackChs = [0, 1] ∧ onlyHandle1 0 = false ∧ onlyHandle1 1 = true ∧
    reqBoth.parseErr = none ∧ effectiveToken reqBoth mux1 = "rtok1" ∧
    reqBoth.Form.Get oauthVerifierParam = "v1" ∧
    pOk.AccessToken "rtok1" mux1.requestSecret "v1" = .ok ("atok1", "asec1") ∧
    (mux1.callbackRecv onlyHandle1 pOk 9 reqBoth).2.2 = Outcome.blocked 0 ∧
    (mux1.callbackRecv onlyHandle1 pOk 9 reqBoth).1.token = NewToken "atok1" "asec1" ∧
    sends (mux1.callbackRecv onlyHandle1 pOk 9 reqBoth).2.1 = [] ∧
    signalCount 1 (mux1.callbackRecv onlyHandle1 pOk 9 reqBoth).2.1 = 0 ∧
    (mux1.callbackRecv onlyHandle1 pOk 9 reqBoth).1.callbackChs = [0, 1] ∧
    mutexEvents (mux1.callbackRecv onlyHandle1 pOk 9 reqBoth).2.1 = [true] :=
  ⟨rfl, rfl, rfl, rfl, by decide, by decide, rfl, by decide, by decide, by decide, by decide,
   by decide, by decide⟩

/-- C4: after a successful callback whose exchange returned `(a, b)`, `Token` returns
`NewToken a b` with a nil error, and still does after any sequence of failed logins and
failed callbacks (each answering 400 or 500). -/
theorem token_after_success_survives_failures {κ : Type} (p : Provider) (now : Time)
    (r : Request) (s : ServeMux κ) (a b : String) (h : r.parseErr = none)
    (ht : effectiveToken r s ≠ "") (hv : r.Form.Get oauthVerifierParam ≠ "")
    (hx : p.AccessToken (effectiveToken r s) s.requestSecret (r.Form.Get oauthVerifierParam)
      = .ok (a, b)) :
    (s.callback p now r).1.Token = (NewToken a b, none) ∧
    ∀ ops, allFailed (s.callback p now r).1 ops = true →
      (run (s.callback p now r).1 ops).1.Token = (NewToken a b, none) := by
  have h1 : (s.callback p now r).1.token = NewToken a b := by
    rw [callback_ok p now r s a b h ht hv hx]
  refine ⟨by simp [ServeMux.Token, h1], ?_⟩
  intro ops hops
  simp [ServeMux.Token, allFailed_token ops _ hops, h1]

theorem token_after_success_survives_failures_witness :
    (mux1.callback pOk 9 reqBoth).1.Token = (NewToken "atok1" "asec1", none) ∧
    (run (mux1.callback pOk 9 reqBoth).1
      [.login pFail, .callback pFail 10 reqBoth, .callback pOk 11 reqNoVerifier,
       .login pFailUrl, .callback pOk 12 reqBad]).1.Token = (NewToken "atok1" "asec1", none) :=
  have hw := token_after_success_survives_failures pOk 9 reqBoth mux1 "atok1" "asec1"
    (by decide) (by decide) (by decide) rfl
  ⟨hw.1, hw.2 _ (by decide)⟩

/-! ## The request token of a callback -/

/-- C5, as stated, fails: a callback with a verifier and a token that differs from the
cached one, whose form does not parse, calls no exchange and stores nothing, although the
exchange would have succeeded. -/
theorem callback_other_token_parse_error_no_exchange :
    reqOtherBad.Form.Get oauthVerifierParam = "v1" ∧
    reqOtherBad.Form.Get oauthTokenParam = "other" ∧
    mux1.requestToken = "rtok1" ∧
    pOk.AccessToken "other" mux1.requestSecret "v1" = .ok ("atok1", "asec1") ∧
    exchanges (mux1.callback pOk 9 reqOtherBad).2 = [] ∧
    status (mux1.callback pOk 9 reqOtherBad).2 = some 500 ∧
    (mux1.callback pOk 9 reqOtherBad).1 = mux1 :=
  ⟨by decide, by decide, rfl, rfl, by decide, by decide, by decide⟩

/-- C5, amended: when the form parses, a callback with a non-empty verifier `v` and a
non-empty token parameter that differs from the cached request token calls the exchange
once, with the parameter, the cached request secret and `v`, never with the cached request
token; and if that exchange returns `(a, b)` the callback writes no status, stores
`NewToken a b` with the current time, sends `true` to each handle of the registry in
order, and empties the registry. -/
theorem callback_uses_presented_token {κ : Type} (p : Provider) (now : Time) (r : Request)
    (s : ServeMux κ) (h : r.parseErr = none) (hv : r.Form.Get oauthVerifierParam ≠ "")
    (hp : r.Form.Get oauthTokenParam ≠ "") (hne : r.Form.Get oauthTokenParam ≠ s.requestToken) :
    exchanges (s.callback p now r).2
      = [(r.Form.Get oauthTokenParam, s.requestSecret, r.Form.Get oauthVerifierParam)] ∧
    (∀ sec v, (s.requestToken, sec, v) ∉ exchanges (s.callback p now r).2) ∧
    (∀ a b, p.AccessToken (r.Form.Get oauthTokenParam) s.requestSecret
        (r.Form.Get oauthVerifierParam) = .ok (a, b) →
      status (s.callback p now r).2 = none ∧
      (s.callback p now r).1.token = NewToken a b ∧
      (s.callback p now r).1.gotTokenAt = now ∧
      sends (s.callback p now r).2 = s.callbackChs.map (fun ch => (ch, true)) ∧
      (s.callback p now r).1.callbackChs = []) := by
  have he : effectiveToken r s = r.Form.Get oauthTokenParam := by
    simp [effectiveToken, hp]
  have ht : effectiveToken r s ≠ "" := by rw [he]; exact hp
  have hex : exchanges (s.callback p now r).2
      = [(r.Form.Get oauthTokenParam, s.requestSecret, r.Form.Get oauthVerifierParam)] := by
    rw [callback_valid_exchanges p now r s h ht hv, he]
  refine ⟨hex, ?_, ?_⟩
  · intro sec v hmem
    rw [hex] at hmem
    simp only [List.mem_singleton, Prod.mk.injEq] at hmem
    exact hne hmem.1.symm
  · intro a b hx
    rw [← he] at hx
    rw [callback_ok p now r s a b h ht hv hx]
    refine ⟨status_callback_ok _ _ _ _, rfl, rfl, ?_, rfl⟩
    simp [sends_append, sends, sends_sendAll]

theorem callback_uses_presented_token_witness :
    exchanges (mux1.callback pOk 9 reqOther).2 = [("other", "rsec1", "v1")] ∧
    status (mux1.callback pOk 9 reqOther).2 = none ∧
    (mux1.callback pOk 9 reqOther).1.token = NewToken "atok1" "asec1" ∧
    (mux1.callback pOk 9 reqOther).1.gotTokenAt = 9 ∧
    sends (mux1.callback pOk 9 reqOther).2 = [(0, true), (1, true)] ∧
    (mux1.callback pOk 9 reqOther).1.callbackChs = [] :=
  have hw := callback_uses_presented_token pOk 9 reqOther mux1 (by decide) (by decide)
    (by decide) (by decide)
  ⟨hw.1, hw.2.2 "atok1" "asec1" rfl⟩

/-- C6, as stated, fails: a callback with a verifier and no token parameter whose form does
not parse calls no exchange when the cached request token is not empty, and answers 500,
not 400, when it is empty. -/
theorem callback_cached_token_parse_error :
    reqVerifierBad.Form.Get oauthVerifierParam = "v1" ∧
    reqVerifierBad.Form.Get oauthTokenParam = "" ∧
    mux1.requestToken = "rtok1" ∧
    exchanges (mux1.callback pOk 9 reqVerifierBad).2 = [] ∧
    (NewServeMux cfg0).requestToken = "" ∧
    status ((NewServeMux cfg0).callback pOk 9 reqVerifierBad).2 = some 500 := by
  decide

/-- C6, amended: when the form parses and the verifier is not empty, the exchange is called
with the token parameter when that is not empty, and otherwise with the cached request
token when that is not empty; when both are empty the callback answers 400, calls no
exchange and leaves the state as it was. -/
theorem callback_effective_token {κ : Type} (p : Provider) (now : Time) (r : Request)
    (s : ServeMux κ) (h : r.parseErr = none) (hv : r.Form.Get oauthVerifierParam ≠ "") :
    (r.Form.Get oauthTokenParam ≠ "" →
      exchanges (s.callback p now r).2
        = [(r.Form.Get oauthTokenParam, s.requestSecret, r.Form.Get oauthVerifierParam)]) ∧
    (r.Form.Get oauthTokenParam = "" → s.requestToken ≠ "" →
      exchanges (s.callback p now r).2
        = [(s.requestToken, s.requestSecret, r.Form.Get oauthVerifierParam)]) ∧
    (r.Form.Get oauthTokenParam = "" → s.requestToken = "" →
      status (s.callback p now r).2 = some 400 ∧
      exchanges (s.callback p now r).2 = [] ∧
      (s.callback p now r).1 = s) := by
  have key : effectiveToken r s ≠ "" → exchanges (s.callback p now r).2
      = [(effectiveToken r s, s.requestSecret, r.Form.Get oauthVerifierParam)] :=
    fun ht => callback_valid_exchanges p now r s h ht hv
  refine ⟨?_, ?_, ?_⟩
  · intro hp
    have he : effectiveToken r s = r.Form.Get oauthTokenParam := by simp [effectiveToken, hp]
    have := key (by rw [he]; exact hp)
    rwa [he] at this
  · intro hp hc
    have he : effectiveToken r s = s.requestToken := by simp [effectiveToken, hp]
    have := key (by rw [he]; exact hc)
    rwa [he] at this
  · intro hp hc
    have he : effectiveToken r s = "" := by simp [effectiveToken, hp, hc]
    rw [callback_invalid p now r s h (Or.inl he)]
    simp [status, exchanges]

theorem callback_effective_token_witness :
    exchanges (mux1.callback pOk 9 reqVerifier).2 = [("rtok1", "rsec1", "v1")] ∧
    exchanges (mux1.callback pOk 9 reqOther).2 = [("other", "rsec1", "v1")] ∧
    status ((NewServeMux cfg0).callback pOk 9 reqVerifier).2 = some 400 :=
  ⟨(callback_effective_token pOk 9 reqVerifier mux1 (by decide) (by decide)).2.1
      (by decide) (by decide),
   (callback_effective_token pOk 9 reqOther mux1 (by decide) (by decide)).1 (by decide),
   ((callback_effective_token pOk 9 reqVerifier (NewServeMux cfg0) (by decide)
      (by decide)).2.2 (by decide) (by decide)).1⟩

/-! ## Failed exchanges -/

/-- C7: a callback that passes validation (the form parses, the effective token and the
verifier are not empty) and whose exchange fails answers 500, leaves the access credential,
its time and the registry as they were, and sends nothing. -/
theorem callback_exchange_failure {κ : Type} (p : Provider) (now : Time) (r : Request)
    (s : ServeMux κ) (e : Error) (h : r.parseErr = none)
    (ht : effectiveToken r s ≠ "") (hv : r.Form.Get oauthVerifierParam ≠ "")
    (hx : p.AccessToken (effectiveToken r s) s.requestSecret (r.Form.Get oauthVerifierParam)
      = .error e) :
    status (s.callback p now r).2 = some 500 ∧
    (s.callback p now r).1.token = s.token ∧
    (s.callback p now r).1.gotTokenAt = s.gotTokenAt ∧
    (s.callback p now r).1.callbackChs = s.callbackChs ∧
    sends (s.callback p now r).2 = [] := by
  rw [callback_exchange_error p now r s e h ht hv hx]
  simp [status, sends]

theorem callback_exchange_failure_witness :
    status (mux1.callback pFail 9 reqBoth).2 = some 500 ∧
    (mux1.callback pFail 9 reqBoth).1.token = mux1.token ∧
    (mux1.callback pFail 9 reqBoth).1.gotTokenAt = mux1.gotTokenAt ∧
    (mux1.callback pFail 9 reqBoth).1.callbackChs = mux1.callbackChs ∧
    sends (mux1.callback pFail 9 reqBoth).2 = [] :=
  callback_exchange_failure pFail 9 reqBoth mux1 "no exchange" (by decide) (by decide)
    (by decide) rfl

/-! ## Subscribers that register after a successful callback -/

/-- C8: let `s0` be any state reached from a fresh mux, let a callback succeed in `s0`, and
let `hd` be the handle returned by a `Callback()` call made right after it. Then `hd` was
sent nothing by that callback and is the only entry of the registry; and over any later
sequence of calls `hd` is sent exactly one value, which is `true`, if some callback of the
sequence succeeds, and none, staying registered, if none does. -/
theorem late_subscriber_waits_for_next_success {κ : Type} (config : ServeMuxConfig κ)
    (history : List Op) (p : Provider) (now : Time) (r : Request) (a b : String)
    (s0 s1 s2 : ServeMux κ) (hd : Chan)
    (hs0 : s0 = (run (NewServeMux config) history).1)
    (h : r.parseErr = none) (ht : effectiveToken r s0 ≠ "")
    (hv : r.Form.Get oauthVerifierParam ≠ "")
    (hx : p.AccessToken (effectiveToken r s0) s0.requestSecret (r.Form.Get oauthVerifierParam)
      = .ok (a, b))
    (hs1 : s1 = (s0.callback p now r).1)
    (hs2 : s2 = s1.Callback.1) (hhd : hd = s1.Callback.2.2) :
    signalCount hd (s0.callback p now r).2 = 0 ∧
    s2.callbackChs = [hd] ∧
    ∀ ops, signalCount hd (run s2 ops).2 = (if anySucceeded s2 ops = true then 1 else 0) ∧
      (anySucceeded s2 ops = false → hd ∈ (run s2 ops).1.callbackChs) ∧
      (∀ v, (hd, v) ∈ sends (run s2 ops).2 → v = true) := by
  have hwf0 : WellFormed s0 := by
    rw [hs0]
    exact wellFormed_run history _ (wellFormed_new config)
  have hcb := callback_ok p now r s0 a b h ht hv hx
  have hd0 : hd = s0.chanCount := by
    rw [hhd, hs1, hcb]
    rfl
  have hreg : s2.callbackChs = [hd] := by
    rw [hs2, hd0, hs1, hcb]
    rfl
  have hnm : hd ∉ s0.callbackChs := by
    intro hm
    have hlt := hwf0.2 hd hm
    rw [hd0] at hlt
    exact Nat.lt_irrefl _ hlt
  have hwf2 : WellFormed s2 := by
    refine ⟨by rw [hreg]; exact List.nodup_singleton _, ?_⟩
    intro c hc
    rw [hreg] at hc
    simp only [List.mem_singleton] at hc
    have hcount : s2.chanCount = s0.chanCount + 1 := by
      rw [hs2, hs1, hcb]
      rfl
    rw [hc, hd0, hcount]
    exact Nat.lt_succ_self _
  refine ⟨?_, hreg, ?_⟩
  · have hs : sends (s0.callback p now r).2 = s0.callbackChs.map (fun c => (c, true)) := by
      rw [hcb]
      simp [sends_append, sends, sends_sendAll]
    rw [signalCount_of_sends_map hd _ _ hs]
    exact List.count_eq_zero_of_not_mem hnm
  · intro ops
    have hmem : hd ∈ s2.callbackChs := by rw [hreg]; exact List.mem_singleton_self _
    have hrun := signalCount_run_of_mem ops s2 hd hwf2 hmem
    exact ⟨hrun.1, hrun.2, fun v hv2 => sends_run_true ops s2 (hd, v) hv2⟩

theorem late_subscriber_waits_for_next_success_witness :
    signalCount 2 ((run (NewServeMux cfg0) [.Callback, .Callback, .login pOk]).1.callback
      pOk 9 reqBoth).2 = 0 ∧
    (((run (NewServeMux cfg0) [.Callback, .Callback, .login pOk]).1.callback
      pOk 9 reqBoth).1.Callback.1).callbackChs = [2] ∧
    signalCount 2 (run (((run (NewServeMux cfg0) [.Callback, .Callback, .login pOk]).1.callback
      pOk 9 reqBoth).1.Callback.1)
        [.login pOk, .callback pFail 10 reqBoth, .Callback, .callback pOk 11 reqBoth,
         .Callback, .callback pOk 12 reqBoth]).2 = 1 ∧
    signalCount 2 (run (((run (NewServeMux cfg0) [.Callback, .Callback, .login pOk]).1.callback
      pOk 9 reqBoth).1.Callback.1)
        [.login pOk, .callback pFail 10 reqBoth, .Callback, .callback pOk 11 reqNoVerifier]).2
      = 0 :=
  have hw := late_subscriber_waits_for_next_success cfg0 [.Callback, .Callback, .login pOk]
    pOk 9 reqBoth "atok1" "asec1" _ _ _ 2 rfl (by decide) (by decide) (by decide) rfl rfl
    rfl rfl
  ⟨hw.1, hw.2.1, (hw.2.2 _).1, (hw.2.2 _).1⟩

/-! ## A callback after several logins -/

/-- C9, as stated, fails: when the most recent login failed to obtain a request credential
the callback uses the one of the earlier login; when the form does not parse no exchange
is called; and when the most recent login obtained an empty token the callback answers 400
without calling the exchange. -/
theorem callback_after_logins_not_latest :
    pOk.RequestToken = .ok ("rtok1", "rsec1") ∧
    pFail.RequestToken = .error "no request token" ∧
    exchanges ((run (NewServeMux cfg0) [.login pOk, .login pFail]).1.callback
      pOk 9 reqVerifier).2 = [("rtok1", "rsec1", "v1")] ∧
    exchanges ((run (NewServeMux cfg0) [.login pOk]).1.callback pOk 9 reqVerifierBad).2 = [] ∧
    pEmpty.RequestToken = .ok ("", "rsec3") ∧
    exchanges ((run (NewServeMux cfg0) [.login pEmpty]).1.callback pOk 9 reqVerifier).2 = [] ∧
    status ((run (NewServeMux cfg0) [.login pEmpty]).1.callback pOk 9 reqVerifier).2
      = some 400 :=
  ⟨rfl, rfl, by decide, by decide, rfl, by decide, by decide⟩

/-- C9, amended: after any sequence of logins whose most recent one obtained a request
credential `(t, sec)` with `t` not empty, a callback whose form parses, that omits
`oauth_token` and carries a non-empty verifier `v`, calls the exchange once, with exactly
`(t, sec, v)`; no request credential of an earlier login is used. -/
theorem callback_uses_latest_login {κ : Type} (s : ServeMux κ) (ps : List Provider)
    (pl p : Provider) (t sec : String) (now : Time) (r : Request)
    (hl : pl.RequestToken = .ok (t, sec)) (hne : t ≠ "") (h : r.parseErr = none)
    (hp : r.Form.Get oauthTokenParam = "") (hv : r.Form.Get oauthVerifierParam ≠ "") :
    exchanges ((run s (ps.map Op.login ++ [Op.login pl])).1.callback p now r).2
      = [(t, sec, r.Form.Get oauthVerifierParam)] := by
  have hst : ∀ s1 : ServeMux κ, (run s1 [Op.login pl]).1 = (s1.login pl).1 := fun _ => rfl
  have hcred := login_request_credential pl (run s (ps.map Op.login)).1 t sec hl
  rw [run_append]
  simp only [hst]
  have he : effectiveToken r ((run s (ps.map Op.login)).1.login pl).1 = t := by
    simp [effectiveToken, hp, hcred.1]
  rw [callback_valid_exchanges p now r _ h (by rw [he]; exact hne) hv, he, hcred.2]

theorem callback_uses_latest_login_witness :
    exchanges ((run mux1 ([pOk, pFail, pFailUrl].map Op.login ++ [Op.login pFailUrl])).1.callback
      pOk 9 reqVerifier).2 = [("rtok2", "rsec2", "v1")] :=
  callback_uses_latest_login mux1 [pOk, pFail, pFailUrl] pFailUrl pOk "rtok2" "rsec2" 9
    reqVerifier rfl (by decide) (by decide) (by decide) (by decide)

/-! ## Successful logins -/

/-- C10: when `RequestToken` returns `(t, sec)` and `AuthorizationURL t` returns `u`, the
login stores `t` and `sec` as the request credential, calls `AuthorizationURL` with `t`
only, and answers 302 with a redirect to `u`. -/
theorem login_success_redirect {κ : Type} (p : Provider) (s : ServeMux κ) (t sec : String)
    (u : URL) (hr : p.RequestToken = .ok (t, sec)) (hu : p.AuthorizationURL t = .ok u) :
    (s.login p).1.requestToken = t ∧ (s.login p).1.requestSecret = sec ∧
    urlCalls (s.login p).2 = [t] ∧
    status (s.login p).2 = some 302 ∧
    redirectTarget (s.login p).2 = some u.text := by
  rw [login_ok p s t sec u hr hu]
  simp [urlCalls, status, redirectTarget]

theorem login_success_redirect_witness :
    (mux1.login pOk).1.requestToken = "rtok1" ∧ (mux1.login pOk).1.requestSecret = "rsec1" ∧
    urlCalls (mux1.login pOk).2 = ["rtok1"] ∧
    status (mux1.login pOk).2 = some 302 ∧
    redirectTarget (mux1.login pOk).2 = some "https://provider/auth?oauth_token=rtok1" :=
  login_success_redirect pOk mux1 "rtok1" "rsec1"
    { text := "https://provider/auth?oauth_token=rtok1" } rfl
    (congrArg Except.ok (by decide))

/-! ## The request credential after a successful callback -/

/-- C11, as stated, fails: a successful callback leaves the request credential in place,
and a later callback that omits `oauth_token` is not rejected: it calls the exchange with
the cached credential and completes. -/
theorem request_credential_kept_after_success :
    status (mux1.callback pOk 9 reqBoth).2 = none ∧
    (mux1.callback pOk 9 reqBoth).1.requestToken = "rtok1" ∧
    (mux1.callback pOk 9 reqBoth).1.requestSecret = "rsec1" ∧
    reqVerifier.Form.Get oauthTokenParam = "" ∧
    exchanges ((mux1.callback pOk 9 reqBoth).1.callback pOk 10 reqVerifier).2
      = [("rtok1", "rsec1", "v1")] ∧
    status ((mux1.callback pOk 9 reqBoth).1.callback pOk 10 reqVerifier).2 = none := by
  decide

/-- C11, amended: a successful callback leaves `requestToken` and `requestSecret` as they
were; a later callback whose form parses and that omits `oauth_token` answers 400 exactly
when the cached request token was already empty or its verifier is empty, and otherwise
calls the exchange once, with the cached request token, the cached request secret and its
verifier. -/
theorem callback_success_keeps_request_credential {κ : Type} (p : Provider) (now : Time)
    (r : Request) (s : ServeMux κ) (a b : String) (h : r.parseErr = none)
    (ht : effectiveToken r s ≠ "") (hv : r.Form.Get oauthVerifierParam ≠ "")
    (hx : p.AccessToken (effectiveToken r s) s.requestSecret (r.Form.Get oauthVerifierParam)
      = .ok (a, b)) :
    (s.callback p now r).1.requestToken = s.requestToken ∧
    (s.callback p now r).1.requestSecret = s.requestSecret ∧
    ∀ (p2 : Provider) (now2 : Time) (r2 : Request), r2.parseErr = none →
      r2.Form.Get oauthTokenParam = "" →
      (status ((s.callback p now r).1.callback p2 now2 r2).2 = some 400 ↔
        (s.requestToken = "" ∨ r2.Form.Get oauthVerifierParam = "")) ∧
      (¬ (s.requestToken = "" ∨ r2.Form.Get oauthVerifierParam = "") →
        exchanges ((s.callback p now r).1.callback p2 now2 r2).2
          = [(s.requestToken, s.requestSecret, r2.Form.Get oauthVerifierParam)]) ∧
      ((s.requestToken = "" ∨ r2.Form.Get oauthVerifierParam = "") →
        exchanges ((s.callback p now r).1.callback p2 now2 r2).2 = []) := by
  have hcb := callback_ok p now r s a b h ht hv hx
  have h1 : (s.callback p now r).1.requestToken = s.requestToken := by rw [hcb]
  have h2 : (s.callback p now r).1.requestSecret = s.requestSecret := by rw [hcb]
  refine ⟨h1, h2, ?_⟩
  intro p2 now2 r2 hp2 htok
  have he : effectiveToken r2 (s.callback p now r).1 = s.requestToken := by
    simp [effectiveToken, htok, h1]
  refine ⟨?_, ?_, ?_⟩
  · rw [callback_status_400_iff, he]
    simp [hp2]
  · intro hno
    have hne : s.requestToken ≠ "" := fun hc => hno (Or.inl hc)
    have hv2 : r2.Form.Get oauthVerifierParam ≠ "" := fun hc => hno (Or.inr hc)
    rw [callback_valid_exchanges p2 now2 r2 _ hp2 (by rw [he]; exact hne) hv2, he, h2]
  · intro hyes
    rw [callback_invalid p2 now2 r2 _ hp2 (by rw [he]; exact hyes)]
    rfl

theorem callback_success_keeps_request_credential_witness :
    (mux1.callback pOk 9 reqBoth).1.requestToken = mux1.requestToken ∧
    (mux1.callback pOk 9 reqBoth).1.requestSecret = mux1.requestSecret ∧
    (status ((mux1.callback pOk 9 reqBoth).1.callback pOk 10 reqVerifier).2 = some 400 ↔
      (mux1.requestToken = "" ∨ reqVerifier.Form.Get oauthVerifierParam = "")) ∧
    exchanges ((mux1.callback pOk 9 reqBoth).1.callback pOk 10 reqVerifier).2
      = [(mux1.requestToken, mux1.requestSecret, reqVerifier.Form.Get oauthVerifierParam)] :=
  have hw := callback_success_keeps_request_credential pOk 9 reqBoth mux1 "atok1" "asec1"
    (by decide) (by decide) (by decide) rfl
  have hl := hw.2.2 pOk 10 reqVerifier (by decide) (by decide)
  ⟨hw.1, hw.2.1, hl.1, hl.2.1 (by decide)⟩

/-! ## The status of a callback -/

/-- C12: the status of a callback is 400 exactly when the form parses and the effective
token or the verifier is empty; it is 500 exactly when the form does not parse, or
validation passes and the exchange fails; in every other case no status is written, the
exchange has succeeded and the flow is completed (credential stored, registry drained). -/
theorem callback_status_determined {κ : Type} (p : Provider) (now : Time) (r : Request)
    (s : ServeMux κ) :
    (status (s.callback p now r).2 = some 400 ↔
      r.parseErr = none ∧ (effectiveToken r s = "" ∨ r.Form.Get oauthVerifierParam = "")) ∧
    (status (s.callback p now r).2 = some 500 ↔
      r.parseErr ≠ none ∨
      (r.parseErr = none ∧ effectiveToken r s ≠ "" ∧ r.Form.Get oauthVerifierParam ≠ "" ∧
        ∃ e, p.AccessToken (effectiveToken r s) s.requestSecret
          (r.Form.Get oauthVerifierParam) = .error e)) ∧
    (status (s.callback p now r).2 ≠ some 400 ∧ status (s.callback p now r).2 ≠ some 500 →
      status (s.callback p now r).2 = none ∧
      ∃ a b, p.AccessToken (effectiveToken r s) s.requestSecret
          (r.Form.Get oauthVerifierParam) = .ok (a, b) ∧
        (s.callback p now r).1
          = { s with token := NewToken a b, gotTokenAt := now, callbackChs := [] } ∧
        sends (s.callback p now r).2 = s.callbackChs.map (fun ch => (ch, true))) := by
  refine ⟨callback_status_400_iff p now r s, callback_status_500_iff p now r s, ?_⟩
  rintro ⟨h4, h5⟩
  rcases callback_cases p now r s with ⟨e, hp, hc⟩ | ⟨hp, hv, hc⟩ | ⟨e, hp, ht, hv, hx, hc⟩ |
    ⟨a, b, hp, ht, hv, hx, hc⟩
  · exact absurd (by simp [hc, status]) h5
  · exact absurd (by simp [hc, status]) h4
  · exact absurd (by simp [hc, status]) h5
  · refine ⟨by rw [hc]; exact status_callback_ok _ _ _ _, a, b, hx, by rw [hc], ?_⟩
    rw [hc]
    simp [sends_append, sends, sends_sendAll]

theorem callback_status_determined_witness :
    status (mux1.callback pOk 9 reqBoth).2 = none ∧
    ∃ a b, pOk.AccessToken (effectiveToken reqBoth mux1) mux1.requestSecret
        (reqBoth.Form.Get oauthVerifierParam) = .ok (a, b) ∧
      (mux1.callback pOk 9 reqBoth).1
        = { mux1 with token := NewToken a b, gotTokenAt := 9, callbackChs := [] } ∧
      sends (mux1.callback pOk 9 reqBoth).2 = mux1.callbackChs.map (fun ch => (ch, true)) :=
  (callback_status_determined pOk 9 reqBoth mux1).2.2 ⟨by decide, by decide⟩

/-! ## The accessor `Token` -/

/-- C13: on a fresh mux, and after any sequence of logins, `Callback()` registrations,
`Token` calls and callbacks none of which completed the flow, `Token` returns a nil token
and a nil error; in every state the error `Token` returns is nil and the call leaves the
state as it was, with no effect. -/
theorem token_none_until_first_success {κ : Type} (config : ServeMuxConfig κ) (ops : List Op)
    (h : anySucceeded (NewServeMux config) ops = false) :
    (NewServeMux config).Token = (none, none) ∧
    (run (NewServeMux config) ops).1.Token = (none, none) ∧
    ∀ s : ServeMux κ, s.Token.2 = none ∧ s.Token.1 = s.token ∧ step s Op.Token = (s, []) := by
  refine ⟨rfl, ?_, fun s => ⟨rfl, rfl, rfl⟩⟩
  simp only [ServeMux.Token, run_token_of_none_succeeded ops _ h]
  rfl

theorem token_none_until_first_success_witness :
    (NewServeMux cfg0).Token = (none, none) ∧
    (run (NewServeMux cfg0)
      [.login pOk, .Callback, .callback pFail 3 reqBoth, .login pFailUrl, .Token,
       .callback pOk 4 reqNoVerifier, .Callback, .callback pOk 5 reqBad]).1.Token
      = (none, none) ∧
    ∀ s : ServeMux Unit, s.Token.2 = none ∧ s.Token.1 = s.token ∧ step s Op.Token = (s, []) :=
  token_none_until_first_success cfg0 _ (by decide)

/-! ## The subscription call `Callback` -/

/-- C14: in every state whose registry is well formed (its handles are distinct channels
made earlier, as in every state a mux can reach), `Callback()` returns a handle that is not
in the registry, appends it as the last entry, leaving the earlier entries and their order
as they were (the length grows by one), and leaves `requestToken`, `requestSecret`, `token`
and `gotTokenAt` as they were. -/
theorem Callback_appends_fresh_handle {κ : Type} (s : ServeMux κ) (hwf : WellFormed s) :
    s.Callback.2.2 ∉ s.callbackChs ∧
    s.Callback.1.callbackChs = s.callbackChs ++ [s.Callback.2.2] ∧
    s.Callback.1.callbackChs.length = s.callbackChs.length + 1 ∧
    s.Callback.1.flowState = s.flowState ∧
    WellFormed s.Callback.1 := by
  refine ⟨?_, rfl, by simp [ServeMux.Callback], rfl, ?_⟩
  · intro hm
    have hlt : s.chanCount < s.chanCount := hwf.2 s.chanCount hm
    exact Nat.lt_irrefl _ hlt
  · exact (wellFormed_step s Op.Callback hwf).1

theorem Callback_appends_fresh_handle_witness :
    mux1.Callback.2.2 ∉ mux1.callbackChs ∧
    mux1.Callback.1.callbackChs = mux1.callbackChs ++ [mux1.Callback.2.2] ∧
    mux1.Callback.1.callbackChs.length = mux1.callbackChs.length + 1 ∧
    mux1.Callback.1.flowState = mux1.flowState ∧
    WellFormed mux1.Callback.1 :=
  Callback_appends_fresh_handle mux1 (by simp [WellFormed, mux1])

/-- C15: after every sequence of calls on a fresh mux, the registry is the list of the
handles returned by the `Callback()` calls made since the last callback that completed the
flow (all of them if none did), in call order; it has no duplicates; and no channel has
been sent more than one value in total. -/
theorem reachable_registry_invariant {κ : Type} (config : ServeMuxConfig κ) (ops : List Op) :
    (run (NewServeMux config) ops).1.callbackChs = pendingHandles (NewServeMux config) [] ops ∧
    (run (NewServeMux config) ops).1.callbackChs.Nodup ∧
    ∀ ch : Chan, signalCount ch (run (NewServeMux config) ops).2 ≤ 1 :=
  ⟨run_callbackChs_eq_pendingHandles ops _ [] rfl,
   (wellFormed_run ops _ (wellFormed_new config)).1,
   fun ch => signalCount_run_le_one ops _ ch (wellFormed_new config)⟩

/-! ## The defaults of the configuration -/

/-- C16: `setDefaults` sets `LoginPath` to "/login" when it was empty and leaves it
otherwise, sets `CallbackPath` to "/callback" when it was empty and leaves it otherwise,
leaves the embedded `Config`, makes both paths non-empty, and applying it twice is
applying it once. -/
theorem setDefaults_spec {κ : Type} (a : ServeMuxConfig κ) :
    (a.LoginPath = "" → a.setDefaults.LoginPath = "/login") ∧
    (a.LoginPath ≠ "" → a.setDefaults.LoginPath = a.LoginPath) ∧
    (a.CallbackPath = "" → a.setDefaults.CallbackPath = "/callback") ∧
    (a.CallbackPath ≠ "" → a.setDefaults.CallbackPath = a.CallbackPath) ∧
    a.setDefaults.Config = a.Config ∧
    a.setDefaults.LoginPath ≠ "" ∧ a.setDefaults.CallbackPath ≠ "" ∧
    a.setDefaults.setDefaults = a.setDefaults := by
  have hl : ("/login" : String) ≠ "" := by decide
  have hc : ("/callback" : String) ≠ "" := by decide
  by_cases h1 : a.LoginPath = "" <;> by_cases h2 : a.CallbackPath = "" <;>
    simp [ServeMuxConfig.setDefaults, h1, h2, hl, hc]

theorem setDefaults_spec_witness :
    cfg0.setDefaults.LoginPath = "/login" ∧ cfg0.setDefaults.CallbackPath = "/callback" ∧
    cfg0.setDefaults.setDefaults = cfg0.setDefaults :=
  ⟨(setDefaults_spec cfg0).1 rfl, (setDefaults_spec cfg0).2.2.1 rfl,
   (setDefaults_spec cfg0).2.2.2.2.2.2.2⟩

/-! ## What a login can change -/

/-- C20: whatever the provider answers, a login leaves the access credential, its time and
the registry as they were and sends nothing; the state after it differs from the state
before it in `requestToken` and `requestSecret` at most. -/
theorem login_changes_only_request_credential {κ : Type} (p : Provider) (s : ServeMux κ) :
    (s.login p).1.token = s.token ∧ (s.login p).1.gotTokenAt = s.gotTokenAt ∧
    (s.login p).1.callbackChs = s.callbackChs ∧
    sends (s.login p).2 = [] ∧
    (s.login p).1 = { s with requestToken := (s.login p).1.requestToken,
                             requestSecret := (s.login p).1.requestSecret } := by
  cases hr : p.RequestToken with
  | error e => simp [login_requestToken_error p s e hr, sends]
  | ok cred =>
    obtain ⟨t, sec⟩ := cred
    cases hu : p.AuthorizationURL t with
    | error e => simp [login_url_error p s t sec e hr hu, sends]
    | ok u => simp [login_ok p s t sec u hr hu, sends]

/-! ## The mutex and the Flow State -/

/-- C18, as stated, fails: `Token` reads `token`, `login` writes the request credential and
`callback` reads the request credential and writes `token` and `gotTokenAt`, all without
holding the mutex; a successful callback only takes the mutex for the registry. -/
theorem flow_state_accessed_outside_lock :
    fieldAccesses false (accesses mux1 Op.Token) = [(Field.token, false)] ∧
    flowStateGuarded (accesses mux1 Op.Token) = false ∧
    fieldAccesses false (accesses mux1 (Op.login pOk))
      = [(Field.requestToken, false), (Field.requestSecret, false)] ∧
    flowStateGuarded (accesses mux1 (Op.login pOk)) = false ∧
    fieldAccesses false (accesses mux1 (Op.callback pOk 9 reqVerifier))
      = [(Field.requestToken, false), (Field.requestSecret, false), (Field.token, false),
         (Field.gotTokenAt, false), (Field.callbackChs, true), (Field.callbackChs, true)] ∧
    flowStateGuarded (accesses mux1 (Op.callback pOk 9 reqVerifier)) = false := by
  decide

/-- C18, amended: in every call of `login`, `callback`, `Token` and `Callback()`, a field is
accessed with the mutex held exactly when the field is the registry: every read and write
of `requestToken`, `requestSecret`, `token` and `gotTokenAt` happens outside the
exclusive-access region, every read and write of the registry inside it. -/
theorem lock_guards_only_registry {κ : Type} (s : ServeMux κ) (op : Op) :
    ∀ x ∈ fieldAccesses false (accesses s op), (x.2 = true ↔ x.1 = Field.callbackChs) := by
  cases op with
  | login p =>
    simp only [accesses, loginAccesses, authorizeAccesses]
    cases p.RequestToken with
    | error e => simp [fieldAccesses]
    | ok cred => simp [fieldAccesses]
  | callback p now r =>
    simp only [accesses, callbackAccesses]
    cases r.ParseForm with
    | some e => simp [fieldAccesses]
    | none =>
      simp only
      by_cases h1 : r.Form.Get oauthTokenParam = ""
      · simp only [h1, if_true]
        split
        · simp [fieldAccesses]
        · split <;> simp [fieldAccesses]
      · simp only [h1, if_false]
        split
        · simp [fieldAccesses]
        · split <;> simp [fieldAccesses]
  | Token => simp [accesses, tokenAccesses, fieldAccesses]
  | Callback => simp [accesses, subscribeAccesses, fieldAccesses]

theorem lock_guards_only_registry_witness :
    (((Field.gotTokenAt, false) : Field × Bool).2 = true ↔
      ((Field.gotTokenAt, false) : Field × Bool).1 = Field.callbackChs) ∧
    (((Field.callbackChs, true) : Field × Bool).2 = true ↔
      ((Field.callbackChs, true) : Field × Bool).1 = Field.callbackChs) :=
  ⟨lock_guards_only_registry mux1 (Op.callback pOk 9 reqVerifier) (Field.gotTokenAt, false)
      (by decide),
   lock_guards_only_registry mux1 (Op.callback pOk 9 reqVerifier) (Field.callbackChs, true)
      (by decide)⟩

/-! ## The order of the store and the signals -/

/-- C19: in a successful callback whose exchange returned `(a, b)`, every send takes place
in a state whose token is `NewToken a b` stored with the current time, so that `Token`
called at that moment returns `NewToken a b`; the sends are those of the handler, one for
each handle of the registry. -/
theorem credential_stored_before_signals {κ : Type} (p : Provider) (now : Time)
    (r : Request) (s : ServeMux κ) (a b : String) (h : r.parseErr = none)
    (ht : effectiveToken r s ≠ "") (hv : r.Form.Get oauthVerifierParam ≠ "")
    (hx : p.AccessToken (effectiveToken r s) s.requestSecret (r.Form.Get oauthVerifierParam)
      = .ok (a, b)) :
    (s.callbackTimed p now r).map Prod.fst = (s.callback p now r).2 ∧
    sends ((s.callbackTimed p now r).map Prod.fst) = s.callbackChs.map (fun ch => (ch, true)) ∧
    ∀ ch v st, (Event.send ch v, st) ∈ s.callbackTimed p now r →
      st.token = NewToken a b ∧ st.gotTokenAt = now ∧ st.Token = (NewToken a b, none) := by
  have hev := callbackTimed_events p now r s
  refine ⟨hev, ?_, ?_⟩
  · rw [hev, callback_ok p now r s a b h ht hv hx]
    simp [sends_append, sends, sends_sendAll]
  · intro ch v st hmem
    rw [callbackTimed_ok p now r s a b h ht hv hx] at hmem
    rcases List.mem_append.mp hmem with h1 | h1
    · rcases List.mem_append.mp h1 with h2 | h2
      · simp at h2
      · obtain ⟨ev, _, heq⟩ := List.mem_map.mp h2
        have hst := (Prod.mk.inj heq).2
        rw [← hst]
        exact ⟨rfl, rfl, rfl⟩
    · simp at h1

theorem credential_stored_before_signals_witness :
    (mux1.callbackTimed pOk 9 reqBoth).map Prod.fst = (mux1.callback pOk 9 reqBoth).2 ∧
    sends ((mux1.callbackTimed pOk 9 reqBoth).map Prod.fst)
      = mux1.callbackChs.map (fun ch => (ch, true)) ∧
    ∀ ch v st, (Event.send ch v, st) ∈ mux1.callbackTimed pOk 9 reqBoth →
      st.token = NewToken "atok1" "asec1" ∧ st.gotTokenAt = 9 ∧
      st.Token = (NewToken "atok1" "asec1", none) :=
  credential_stored_before_signals pOk 9 reqBoth mux1 "atok1" "asec1" (by decide)
    (by decide) (by decide) rfl

end OAuth1
